import Mathlib

/-!
Verification of the nested-transaction managers of shogo82148/txmanager.

The repository contains two state machines built over `database/sql`:

* the counting variant (`txmanager.go`, and its older twin `txnmanager.go`):
  nesting by reference counting, one shared physical transaction per tree;
* the savepoint variant (`savepoint/savepoint.go`): one SQL SAVEPOINT per
  nesting level, allowing partial rollback of an inner unit of work.

The embedding models one nesting tree as a list of `Node` records indexed by
their creation order (the root-of-nesting is index 0, as created by
`db.TxBegin`).  Go pointers (`parent`, `root`) become indices into that list.
Driver calls (`Begin`, `Commit`, `Rollback`, `Exec`) are external collaborators:
their results are passed in as `Option Nat` oracles (`none` = the call returned
nil, `some e` = the call returned the opaque error `e`).  Each operation
returns the Go error value, the updated tree, the list of physical SQL actions
it issued (with the driver's reply recorded on each action), and the list of
end hooks it executed.  The lookup default `defaultNode` is a node with
`done := true`, so that operations on an index that names no node report
`sql.ErrTxDone` instead of the nil-pointer crash the Go code would produce;
all theorems about real nodes carry an `i < nodes.length` bound.
-/

/-- Go error values surfaced by the managers: `sql.ErrTxDone`,
`txmanager.ErrChildrenNotDone`, and opaque external errors (driver errors and
end-hook errors), identified by a number. -/
inductive GoErr where
  | txDone
  | childrenNotDone
  | ext (e : Nat)
deriving DecidableEq

/-- An end hook `func() error`: `id` identifies the closure (registration
order is the list order), `res` is the value it returns when invoked. -/
structure Hook where
  id : Nat
  res : Option Nat
deriving DecidableEq

/-- A physical SQL action issued to the driver, together with the driver's
reply (`none` = success). -/
inductive PhysAction where
  | beginTx (res : Option Nat)
  | commit (res : Option Nat)
  | rollback (res : Option Nat)
  | sqlExec (q : String) (res : Option Nat)
deriving DecidableEq

/-- The end-hook loop of `tx.TxCommit` (txmanager.go lines 139-145, identical
at savepoint.go lines 91-97): run the hooks in order; the first hook returning
an error stops the loop and that error is returned.  Result: the Go error and
the ids of the hooks that were invoked (the failing hook included, since it
ran). -/
def runHooks : List Hook → Option GoErr × List Nat
  | [] => (none, [])
  | h :: rest =>
    match h.res with
    | some e => (some (GoErr.ext e), [h.id])
    | none =>
      let r := runHooks rest
      (r.1, h.id :: r.2)

namespace txmanager

/-- One nesting level (`tx` struct, txmanager.go lines 78-85).  `parent` and
`root` are the pointer fields turned into indices; `childCount` is a Go `int`;
`hooks` is this node's `hooks` slice (the counting variant only ever appends
to the root-of-nesting's slice). -/
structure Node where
  parent : Option Nat
  root : Nat
  childCount : Int
  done : Bool
  hooks : List Hook
deriving DecidableEq

/-- Lookup default for an index naming no node; `done := true` makes such
accesses report `sql.ErrTxDone` (the Go code would crash instead). -/
def defaultNode : Node :=
  { parent := none, root := 0, childCount := 0, done := true, hooks := [] }

/-- One nesting tree: the nodes in creation order, root-of-nesting at 0. -/
structure TxState where
  nodes : List Node
deriving DecidableEq

def getNode (s : TxState) (i : Nat) : Node :=
  s.nodes.getD i defaultNode

def setNode (s : TxState) (i : Nat) (f : Node → Node) : TxState :=
  { nodes := s.nodes.set i (f (getNode s i)) }

/-- The tree created by `db.TxBegin` (txmanager.go lines 91-100) after a
successful physical BEGIN: a single node that is its own root-of-nesting. -/
def initState : TxState :=
  { nodes := [{ parent := none, root := 0, childCount := 0, done := false,
                hooks := [] }] }

/-- `db.TxBegin` (txmanager.go lines 91-100): physical BEGIN; on failure the
error is returned and no node exists, on success the fresh tree is returned. -/
def dbTxBegin (beginErr : Option Nat) :
    Option GoErr × Option TxState × List PhysAction :=
  match beginErr with
  | some e => (some (GoErr.ext e), none, [PhysAction.beginTx (some e)])
  | none => (none, some initState, [PhysAction.beginTx none])

/-- `tx.TxBegin` (txmanager.go lines 102-110): increment this node's
`childCount` and append a child sharing the physical transaction and the same
root-of-nesting.  No physical SQL, no error.  Returns the new state and the
child's index. -/
def TxBegin (s : TxState) (i : Nat) : TxState × Nat :=
  let s1 := setNode s i (fun n => { n with childCount := n.childCount + 1 })
  let child : Node :=
    { parent := some i, root := (getNode s i).root, childCount := 0,
      done := false, hooks := [] }
  ({ nodes := s1.nodes ++ [child] }, s.nodes.length)

/-- `tx.TxRollback` (txmanager.go lines 150-157): `sql.ErrTxDone` if this node
or its root-of-nesting is already done; otherwise mark this node AND the
root-of-nesting done, then issue the physical ROLLBACK and return its result
(`rErr`). -/
def TxRollback (rErr : Option Nat) (s : TxState) (i : Nat) :
    Option GoErr × TxState × List PhysAction :=
  let t := getNode s i
  if t.done || (getNode s t.root).done then
    (some GoErr.txDone, s, [])
  else
    let s1 := setNode s i (fun n => { n with done := true })
    let s2 := setNode s1 t.root (fun n => { n with done := true })
    (rErr.map GoErr.ext, s2, [PhysAction.rollback rErr])

/-- `tx.TxCommit` (txmanager.go lines 112-148).  Oracles: `cErr` is the result
of the physical COMMIT (when reached), `rErr` the result of whichever physical
ROLLBACK the call issues (when reached).  Returns (error, state, physical
actions, executed hook ids). -/
def TxCommit (cErr rErr : Option Nat) (s : TxState) (i : Nat) :
    Option GoErr × TxState × List PhysAction × List Nat :=
  let t := getNode s i
  if t.done || (getNode s t.root).done then
    (some GoErr.txDone, s, [], [])
  else if t.childCount ≠ 0 then
    let r := TxRollback rErr s i
    (some GoErr.childrenNotDone, r.2.1, r.2.2, [])
  else
    let s1 := setNode s i (fun n => { n with done := true })
    match t.parent with
    | some p =>
      (none, setNode s1 p (fun n => { n with childCount := n.childCount - 1 }),
        [], [])
    | none =>
      match cErr with
      | some e =>
        (rErr.map GoErr.ext, s1,
          [PhysAction.commit (some e), PhysAction.rollback rErr], [])
      | none =>
        let r := runHooks (getNode s1 i).hooks
        (r.1, s1, [PhysAction.commit none], r.2)

/-- `tx.TxFinish` (txmanager.go lines 159-164): nil if this node or its root
is already done, otherwise `TxRollback`. -/
def TxFinish (rErr : Option Nat) (s : TxState) (i : Nat) :
    Option GoErr × TxState × List PhysAction :=
  let t := getNode s i
  if t.done || (getNode s t.root).done then
    (none, s, [])
  else
    TxRollback rErr s i

/-- `tx.TxAddEndHook` (txmanager.go lines 166-172): `sql.ErrTxDone` if this
node or its root is done, otherwise append the hook to the root-of-nesting's
hook slice. -/
def TxAddEndHook (s : TxState) (i : Nat) (h : Hook) : Option GoErr × TxState :=
  let t := getNode s i
  if t.done || (getNode s t.root).done then
    (some GoErr.txDone, s)
  else
    (none, setNode s t.root (fun n => { n with hooks := n.hooks ++ [h] }))

/-- A call against one tree, with the oracles the call will consume. -/
inductive Op where
  | beginOp (p : Nat)
  | commitOp (i : Nat) (cErr rErr : Option Nat)
  | rollbackOp (i : Nat) (rErr : Option Nat)
  | finishOp (i : Nat) (rErr : Option Nat)
  | addHookOp (i : Nat) (h : Hook)
deriving DecidableEq

structure StepOut where
  res : Option GoErr
  st : TxState
  phys : List PhysAction
  hk : List Nat
deriving DecidableEq

def step (s : TxState) : Op → StepOut
  | Op.beginOp p => ⟨none, (TxBegin s p).1, [], []⟩
  | Op.commitOp i cErr rErr =>
    let r := TxCommit cErr rErr s i
    ⟨r.1, r.2.1, r.2.2.1, r.2.2.2⟩
  | Op.rollbackOp i rErr =>
    let r := TxRollback rErr s i
    ⟨r.1, r.2.1, r.2.2, []⟩
  | Op.finishOp i rErr =>
    let r := TxFinish rErr s i
    ⟨r.1, r.2.1, r.2.2, []⟩
  | Op.addHookOp i h =>
    let r := TxAddEndHook s i h
    ⟨r.1, r.2, [], []⟩

structure RunOut where
  fin : TxState
  results : List (Option GoErr)
  phys : List PhysAction
  hk : List Nat
deriving DecidableEq

/-- Run a sequence of calls against one tree, collecting each call's returned
error, every physical action issued, and every hook executed. -/
def run (s : TxState) : List Op → RunOut
  | [] => ⟨s, [], [], []⟩
  | op :: ops =>
    let o := step s op
    let R := run o.st ops
    ⟨R.fin, o.res :: R.results, o.phys ++ R.phys, o.hk ++ R.hk⟩

/-- `Do` (txmanager.go lines 175-186) on a `Tx` handle: begin a child from
node `p`, run the caller's body, and commit on success; `TxFinish` on the
child is deferred, so it runs last and its error is discarded.  The body `bf`
is abstract: it receives the state and the child's index and yields the state
after its own work together with the error it returns. -/
def Do (bf : TxState → Nat → TxState × Option Nat) (cErr rErr fErr : Option Nat)
    (s : TxState) (p : Nat) : Option GoErr × TxState × List PhysAction × List Nat :=
  let b := TxBegin s p
  let body := bf b.1 b.2
  match body.2 with
  | some e =>
    let f := TxFinish fErr body.1 b.2
    (some (GoErr.ext e), f.2.1, f.2.2, [])
  | none =>
    let c := TxCommit cErr rErr body.1 b.2
    let f := TxFinish fErr c.2.1 b.2
    (c.1, f.2.1, c.2.2.1 ++ f.2.2, c.2.2.2)

/-- `Do` (txmanager.go lines 175-186) on the `DB` handle: `TxBegin` there is
`db.TxBegin`, whose physical BEGIN may fail, in which case `Do` returns that
error at once. -/
def DoDb (bf : TxState → Nat → TxState × Option Nat)
    (beginErr cErr rErr fErr : Option Nat) :
    Option GoErr × List PhysAction × List Nat :=
  match beginErr with
  | some e => (some (GoErr.ext e), [PhysAction.beginTx (some e)], [])
  | none =>
    let body := bf initState 0
    match body.2 with
    | some e =>
      let f := TxFinish fErr body.1 0
      (some (GoErr.ext e), PhysAction.beginTx none :: f.2.2, [])
    | none =>
      let c := TxCommit cErr rErr body.1 0
      let f := TxFinish fErr c.2.1 0
      (c.1, PhysAction.beginTx none :: (c.2.2.1 ++ f.2.2), c.2.2.2)


/-- The `done` flag of the root-of-nesting (node 0). -/
def done0 (s : TxState) : Bool :=
  (getNode s 0).done

/-- The hook slice of the root-of-nesting (node 0). -/
def hooks0 (s : TxState) : List Hook :=
  (getNode s 0).hooks

/-- Shape invariant of every tree reachable from `initState`: the tree is
nonempty, node 0 has no parent, every node's `root` field names node 0, and
node 0 is the only parentless node. -/
def Inv (s : TxState) : Prop :=
  0 < s.nodes.length ∧
  (getNode s 0).parent = none ∧
  (∀ j, j < s.nodes.length → (getNode s j).root = 0) ∧
  (∀ j, j < s.nodes.length → (getNode s j).parent = none → j = 0)

/-- An op of the kind quantified over by the nested-commit property: a
`TxBegin` or a `TxCommit` whose physical calls (if any) succeed. -/
def cleanOp : Op → Bool
  | Op.beginOp _ => true
  | Op.commitOp _ none none => true
  | _ => false

end txmanager

namespace savepoint

/-- One nesting level of the savepoint variant (`tx` struct, savepoint.go
lines 15-24).  `saveCount` is the per-tree savepoint-name counter (only the
root-of-nesting's field is ever used); `name` is the SAVEPOINT name stored on
this node at creation, `""` for the root-of-nesting.  `saveCount` only ever
grows, so it is a `Nat`. -/
structure Node where
  parent : Option Nat
  root : Nat
  childCount : Int
  saveCount : Nat
  done : Bool
  name : String
  hooks : List Hook
deriving DecidableEq

/-- Lookup default for an index naming no node (`done := true`, see the
counting variant). -/
def defaultNode : Node :=
  { parent := none, root := 0, childCount := 0, saveCount := 0, done := true,
    name := "", hooks := [] }

structure TxState where
  nodes : List Node
deriving DecidableEq

def getNode (s : TxState) (i : Nat) : Node :=
  s.nodes.getD i defaultNode

def setNode (s : TxState) (i : Nat) (f : Node → Node) : TxState :=
  { nodes := s.nodes.set i (f (getNode s i)) }

/-- The tree created by `db.TxBegin` (savepoint.go lines 33-42) after a
successful physical BEGIN. -/
def initState : TxState :=
  { nodes := [{ parent := none, root := 0, childCount := 0, saveCount := 0,
                done := false, name := "", hooks := [] }] }

/-- `tx.TxBegin` (savepoint.go lines 44-59): increment the root's `saveCount`,
issue `SAVEPOINT savepoint_<count>`; on failure return the driver error (the
counter increment survives, the child is not created); on success increment
this node's `childCount` and append the child carrying the generated name. -/
def TxBegin (execErr : Option Nat) (s : TxState) (i : Nat) :
    Option GoErr × TxState × Option Nat × List PhysAction :=
  let r := (getNode s i).root
  let s1 := setNode s r (fun n => { n with saveCount := n.saveCount + 1 })
  let name := "savepoint_" ++ toString (getNode s1 r).saveCount
  match execErr with
  | some e =>
    (some (GoErr.ext e), s1, none, [PhysAction.sqlExec ("SAVEPOINT " ++ name) (some e)])
  | none =>
    let s2 := setNode s1 i (fun n => { n with childCount := n.childCount + 1 })
    let child : Node :=
      { parent := some i, root := r, childCount := 0, saveCount := 0,
        done := false, name := name, hooks := [] }
    (none, { nodes := s2.nodes ++ [child] }, some s2.nodes.length,
      [PhysAction.sqlExec ("SAVEPOINT " ++ name) none])

/-- `tx.TxRollback` (savepoint.go lines 102-116): `sql.ErrTxDone` if this node
or its root is done; otherwise mark THIS node done.  A node with a parent
decrements the parent's `childCount` and issues
`ROLLBACK TO SAVEPOINT <name>`, returning the driver's result; the
root-of-nesting issues the physical ROLLBACK.  The tree root is NOT marked
done by a non-root rollback. -/
def TxRollback (physErr : Option Nat) (s : TxState) (i : Nat) :
    Option GoErr × TxState × List PhysAction :=
  let t := getNode s i
  if t.done || (getNode s t.root).done then
    (some GoErr.txDone, s, [])
  else
    let s1 := setNode s i (fun n => { n with done := true })
    match t.parent with
    | some p =>
      let s2 := setNode s1 p (fun n => { n with childCount := n.childCount - 1 })
      (physErr.map GoErr.ext, s2,
        [PhysAction.sqlExec ("ROLLBACK TO SAVEPOINT " ++ t.name) physErr])
    | none =>
      (physErr.map GoErr.ext, s1, [PhysAction.rollback physErr])

/-- `tx.TxCommit` (savepoint.go lines 61-100).  Oracles: `relErr` for the
`RELEASE SAVEPOINT` statement, `cErr` for the physical COMMIT, `rErr` for the
fallback physical ROLLBACK, `rbErr` for whatever physical call the internal
`TxRollback` of the children-not-done branch makes.  A node with a parent is
marked done and decrements the parent's `childCount` BEFORE the RELEASE is
issued; on RELEASE failure its hooks are not transferred, on success they are
appended to the parent's hook slice. -/
def TxCommit (relErr cErr rErr rbErr : Option Nat) (s : TxState) (i : Nat) :
    Option GoErr × TxState × List PhysAction × List Nat :=
  let t := getNode s i
  if t.done || (getNode s t.root).done then
    (some GoErr.txDone, s, [], [])
  else if t.childCount ≠ 0 then
    let r := TxRollback rbErr s i
    (some GoErr.childrenNotDone, r.2.1, r.2.2, [])
  else
    let s1 := setNode s i (fun n => { n with done := true })
    match t.parent with
    | some p =>
      let s2 := setNode s1 p (fun n => { n with childCount := n.childCount - 1 })
      match relErr with
      | some e =>
        (some (GoErr.ext e), s2,
          [PhysAction.sqlExec ("RELEASE SAVEPOINT " ++ t.name) (some e)], [])
      | none =>
        let s3 := setNode s2 p
          (fun n => { n with hooks := n.hooks ++ (getNode s2 i).hooks })
        (none, s3,
          [PhysAction.sqlExec ("RELEASE SAVEPOINT " ++ t.name) none], [])
    | none =>
      match cErr with
      | some e =>
        (rErr.map GoErr.ext, s1,
          [PhysAction.commit (some e), PhysAction.rollback rErr], [])
      | none =>
        let r := runHooks (getNode s1 i).hooks
        (r.1, s1, [PhysAction.commit none], r.2)

/-- `tx.TxFinish` (savepoint.go lines 118-123): nil if this node or its root
is already done, otherwise `TxRollback`. -/
def TxFinish (physErr : Option Nat) (s : TxState) (i : Nat) :
    Option GoErr × TxState × List PhysAction :=
  let t := getNode s i
  if t.done || (getNode s t.root).done then
    (none, s, [])
  else
    TxRollback physErr s i

/-- `tx.TxAddEndHook` (savepoint.go lines 125-131): `sql.ErrTxDone` if this
node or its root is done, otherwise append the hook to THIS node's own hook
slice (hooks bubble up only when the node commits). -/
def TxAddEndHook (s : TxState) (i : Nat) (h : Hook) : Option GoErr × TxState :=
  let t := getNode s i
  if t.done || (getNode s t.root).done then
    (some GoErr.txDone, s)
  else
    (none, setNode s i (fun n => { n with hooks := n.hooks ++ [h] }))

/-- A call against one savepoint tree, with its oracles. -/
inductive Op where
  | beginOp (i : Nat) (execErr : Option Nat)
  | commitOp (i : Nat) (relErr cErr rErr rbErr : Option Nat)
  | rollbackOp (i : Nat) (physErr : Option Nat)
  | finishOp (i : Nat) (physErr : Option Nat)
  | addHookOp (i : Nat) (h : Hook)
deriving DecidableEq

structure StepOut where
  res : Option GoErr
  st : TxState
  phys : List PhysAction
  hk : List Nat
deriving DecidableEq

def step (s : TxState) : Op → StepOut
  | Op.beginOp i execErr =>
    let r := TxBegin execErr s i
    ⟨r.1, r.2.1, r.2.2.2, []⟩
  | Op.commitOp i relErr cErr rErr rbErr =>
    let r := TxCommit relErr cErr rErr rbErr s i
    ⟨r.1, r.2.1, r.2.2.1, r.2.2.2⟩
  | Op.rollbackOp i physErr =>
    let r := TxRollback physErr s i
    ⟨r.1, r.2.1, r.2.2, []⟩
  | Op.finishOp i physErr =>
    let r := TxFinish physErr s i
    ⟨r.1, r.2.1, r.2.2, []⟩
  | Op.addHookOp i h =>
    let r := TxAddEndHook s i h
    ⟨r.1, r.2, [], []⟩

structure RunOut where
  fin : TxState
  results : List (Option GoErr)
  phys : List PhysAction
  hk : List Nat
deriving DecidableEq

def run (s : TxState) : List Op → RunOut
  | [] => ⟨s, [], [], []⟩
  | op :: ops =>
    let o := step s op
    let R := run o.st ops
    ⟨R.fin, o.res :: R.results, o.phys ++ R.phys, o.hk ++ R.hk⟩

end savepoint

/-! ### Helper lemmas -/

theorem runHooks_all_ok (H : List Hook) (hH : ∀ x ∈ H, x.res = none) :
    runHooks H = (none, H.map Hook.id) := by
  induction H with
  | nil => rfl
  | cons h rest ih =>
    have hh : h.res = none := hH h (List.mem_cons_self h rest)
    have := ih (fun x hx => hH x (List.mem_cons_of_mem h hx))
    simp [runHooks, hh, this]

theorem runHooks_first_err (H1 H2 : List Hook) (h : Hook) (e : Nat)
    (hH1 : ∀ x ∈ H1, x.res = none) (hh : h.res = some e) :
    runHooks (H1 ++ h :: H2) = (some (GoErr.ext e), H1.map Hook.id ++ [h.id]) := by
  induction H1 with
  | nil => simp [runHooks, hh]
  | cons x rest ih =>
    have hx : x.res = none := hH1 x (List.mem_cons_self x rest)
    have := ih (fun y hy => hH1 y (List.mem_cons_of_mem x hy))
    simp [runHooks, hx, this]

/-! ### Generic list-access lemmas used by both variants -/

theorem getD_set_self {α : Type} (l : List α) (i : Nat) (a d : α)
    (h : i < l.length) : (l.set i a).getD i d = a := by
  induction l generalizing i with
  | nil => simp at h
  | cons x xs ih =>
    cases i with
    | zero => rfl
    | succ n =>
      simpa [List.getD] using ih n (by simpa using h)

theorem getD_set_ne {α : Type} (l : List α) (i j : Nat) (a d : α)
    (h : j ≠ i) : (l.set i a).getD j d = l.getD j d := by
  induction l generalizing i j with
  | nil => simp
  | cons x xs ih =>
    cases i with
    | zero =>
      cases j with
      | zero => exact absurd rfl h
      | succ m => rfl
    | succ n =>
      cases j with
      | zero => rfl
      | succ m =>
        simpa [List.getD] using ih n m (fun hc => h (by rw [hc]))

theorem getD_append_lt {α : Type} (l l' : List α) (j : Nat) (d : α)
    (h : j < l.length) : (l ++ l').getD j d = l.getD j d := by
  induction l generalizing j with
  | nil => simp at h
  | cons x xs ih =>
    cases j with
    | zero => rfl
    | succ n =>
      simpa [List.getD] using ih n (by simpa using h)

theorem getD_append_len {α : Type} (l : List α) (c d : α) :
    (l ++ [c]).getD l.length d = c := by
  induction l with
  | nil => rfl
  | cons x xs ih => simp [List.getD]

theorem getD_oob {α : Type} (l : List α) (j : Nat) (d : α)
    (h : ¬ j < l.length) : l.getD j d = d := by
  induction l generalizing j with
  | nil => simp [List.getD]
  | cons x xs ih =>
    cases j with
    | zero => simp at h
    | succ n =>
      simpa [List.getD] using ih n (by simpa using h)

namespace txmanager

theorem length_setNode (s : TxState) (i : Nat) (f : Node → Node) :
    (setNode s i f).nodes.length = s.nodes.length := by
  simp [setNode]

theorem getNode_setNode (s : TxState) (i : Nat) (f : Node → Node) (j : Nat) :
    getNode (setNode s i f) j =
      if j = i ∧ i < s.nodes.length then f (getNode s i) else getNode s j := by
  by_cases h1 : j = i
  · subst h1
    by_cases h2 : j < s.nodes.length
    · rw [if_pos ⟨rfl, h2⟩]
      simp only [getNode, setNode]
      exact getD_set_self _ _ _ _ h2
    · rw [if_neg (fun hc => h2 hc.2)]
      simp only [getNode, setNode]
      rw [getD_oob _ _ _ (by simpa using h2), getD_oob _ _ _ h2]
  · rw [if_neg (fun hc => h1 hc.1)]
    simp only [getNode, setNode]
    exact getD_set_ne _ _ _ _ _ h1

theorem lt_of_not_done (s : TxState) (i : Nat)
    (h : (getNode s i).done = false) : i < s.nodes.length := by
  by_contra hc
  rw [getNode, getD_oob _ _ _ hc] at h
  simp [defaultNode] at h

theorem done_setNode_pres (s : TxState) (i : Nat) (f : Node → Node) (j : Nat)
    (hf : ∀ n, (f n).done = n.done) :
    (getNode (setNode s i f) j).done = (getNode s j).done := by
  rw [getNode_setNode]
  by_cases hc : j = i ∧ i < s.nodes.length
  · rw [if_pos hc, hf, hc.1]
  · rw [if_neg hc]

theorem hooks_setNode_pres (s : TxState) (i : Nat) (f : Node → Node) (j : Nat)
    (hf : ∀ n, (f n).hooks = n.hooks) :
    (getNode (setNode s i f) j).hooks = (getNode s j).hooks := by
  rw [getNode_setNode]
  by_cases hc : j = i ∧ i < s.nodes.length
  · rw [if_pos hc, hf, hc.1]
  · rw [if_neg hc]

theorem childCount_setNode_pres (s : TxState) (i : Nat) (f : Node → Node)
    (j : Nat) (hf : ∀ n, (f n).childCount = n.childCount) :
    (getNode (setNode s i f) j).childCount = (getNode s j).childCount := by
  rw [getNode_setNode]
  by_cases hc : j = i ∧ i < s.nodes.length
  · rw [if_pos hc, hf, hc.1]
  · rw [if_neg hc]

theorem Inv_setNode (s : TxState) (i : Nat) (f : Node → Node)
    (hp : ∀ n, (f n).parent = n.parent) (hr : ∀ n, (f n).root = n.root)
    (hInv : Inv s) : Inv (setNode s i f) := by
  obtain ⟨h1, h2, h3, h4⟩ := hInv
  refine ⟨by simpa [length_setNode] using h1, ?_, ?_, ?_⟩
  · rw [getNode_setNode]
    by_cases hc : (0 : Nat) = i ∧ i < s.nodes.length
    · rw [if_pos hc, hp, ← hc.1]; exact h2
    · rw [if_neg hc]; exact h2
  · intro j hj
    rw [length_setNode] at hj
    rw [getNode_setNode]
    by_cases hc : j = i ∧ i < s.nodes.length
    · rw [if_pos hc, hr]; exact h3 i hc.2
    · rw [if_neg hc]; exact h3 j hj
  · intro j hj hpar
    rw [length_setNode] at hj
    rw [getNode_setNode] at hpar
    by_cases hc : j = i ∧ i < s.nodes.length
    · obtain ⟨he, hlt⟩ := hc
      subst he
      rw [if_pos ⟨rfl, hlt⟩, hp] at hpar
      exact h4 j hj hpar
    · rw [if_neg hc] at hpar; exact h4 j hj hpar

theorem length_begin (s : TxState) (p : Nat) :
    (TxBegin s p).1.nodes.length = s.nodes.length + 1 := by
  simp [TxBegin, setNode]

theorem getNode_begin_lt (s : TxState) (p j : Nat) (hj : j < s.nodes.length) :
    getNode (TxBegin s p).1 j =
      getNode (setNode s p (fun n => { n with childCount := n.childCount + 1 })) j := by
  simp only [TxBegin, getNode]
  exact getD_append_lt _ _ _ _ (by simpa [setNode] using hj)

theorem getNode_begin_new (s : TxState) (p : Nat) :
    getNode (TxBegin s p).1 s.nodes.length =
      { parent := some p, root := (getNode s p).root, childCount := 0,
        done := false, hooks := [] } := by
  simp only [TxBegin, getNode]
  rw [show s.nodes.length =
      (setNode s p (fun n => { n with childCount := n.childCount + 1 })).nodes.length
    from (length_setNode _ _ _).symm]
  exact getD_append_len _ _ _

theorem done0_begin (s : TxState) (p : Nat) (h0 : 0 < s.nodes.length) :
    done0 (TxBegin s p).1 = done0 s := by
  unfold done0
  rw [getNode_begin_lt s p 0 h0]
  exact done_setNode_pres _ _ _ _ (fun n => rfl)

theorem hooks0_begin (s : TxState) (p : Nat) (h0 : 0 < s.nodes.length) :
    hooks0 (TxBegin s p).1 = hooks0 s := by
  unfold hooks0
  rw [getNode_begin_lt s p 0 h0]
  exact hooks_setNode_pres _ _ _ _ (fun n => rfl)

theorem Inv_begin (s : TxState) (p : Nat) (hInv : Inv s) :
    Inv (TxBegin s p).1 := by
  obtain ⟨h1, h2, h3, h4⟩ := hInv
  refine ⟨by rw [length_begin]; exact Nat.lt_succ_of_lt h1, ?_, ?_, ?_⟩
  · rw [getNode_begin_lt s p 0 h1, getNode_setNode]
    by_cases hc : (0 : Nat) = p ∧ p < s.nodes.length
    · rw [if_pos hc, ← hc.1]; exact h2
    · rw [if_neg hc]; exact h2
  · intro j hj
    rw [length_begin] at hj
    rcases Nat.lt_succ_iff_lt_or_eq.mp hj with hlt | heq
    · rw [getNode_begin_lt s p j hlt, getNode_setNode]
      by_cases hc : j = p ∧ p < s.nodes.length
      · rw [if_pos hc]; exact h3 p hc.2
      · rw [if_neg hc]; exact h3 j hlt
    · subst heq
      rw [getNode_begin_new]
      by_cases hp : p < s.nodes.length
      · exact h3 p hp
      · show (getNode s p).root = 0
        rw [getNode, getD_oob _ _ _ hp]
        rfl
  · intro j hj hpar
    rw [length_begin] at hj
    rcases Nat.lt_succ_iff_lt_or_eq.mp hj with hlt | heq
    · rw [getNode_begin_lt s p j hlt, getNode_setNode] at hpar
      by_cases hc : j = p ∧ p < s.nodes.length
      · obtain ⟨he, hplt⟩ := hc
        subst he
        rw [if_pos ⟨rfl, hplt⟩] at hpar
        exact h4 j hlt hpar
      · rw [if_neg hc] at hpar; exact h4 j hlt hpar
    · subst heq
      rw [getNode_begin_new] at hpar
      simp at hpar

end txmanager



namespace txmanager

theorem guard_of_done0 (s : TxState) (hInv : Inv s) (h0 : done0 s = true)
    (j : Nat) :
    ((getNode s j).done || (getNode s (getNode s j).root).done) = true := by
  by_cases hj : j < s.nodes.length
  · rw [hInv.2.2.1 j hj]
    unfold done0 at h0
    simp [h0]
  · rw [getNode, getD_oob _ _ _ hj]
    simp [defaultNode]

theorem step_dead (s : TxState) (op : Op) (hInv : Inv s) (h0 : done0 s = true) :
    (step s op).phys = [] ∧ (step s op).hk = [] ∧ Inv (step s op).st ∧
    done0 (step s op).st = true ∧ hooks0 (step s op).st = hooks0 s := by
  cases op with
  | beginOp p =>
    refine ⟨rfl, rfl, Inv_begin s p hInv, ?_, ?_⟩
    · show done0 (TxBegin s p).1 = true
      rw [done0_begin s p hInv.1]; exact h0
    · show hooks0 (TxBegin s p).1 = hooks0 s
      exact hooks0_begin s p hInv.1
  | commitOp i cErr rErr =>
    have hg := guard_of_done0 s hInv h0 i
    have hstep : step s (Op.commitOp i cErr rErr) =
        ⟨some GoErr.txDone, s, [], []⟩ := by
      simp [step, TxCommit, hg]
    rw [hstep]
    exact ⟨rfl, rfl, hInv, h0, rfl⟩
  | rollbackOp i rErr =>
    have hg := guard_of_done0 s hInv h0 i
    have hstep : step s (Op.rollbackOp i rErr) =
        ⟨some GoErr.txDone, s, [], []⟩ := by
      simp [step, TxRollback, hg]
    rw [hstep]
    exact ⟨rfl, rfl, hInv, h0, rfl⟩
  | finishOp i rErr =>
    have hg := guard_of_done0 s hInv h0 i
    have hstep : step s (Op.finishOp i rErr) = ⟨none, s, [], []⟩ := by
      simp [step, TxFinish, hg]
    rw [hstep]
    exact ⟨rfl, rfl, hInv, h0, rfl⟩
  | addHookOp i h =>
    have hg := guard_of_done0 s hInv h0 i
    have hstep : step s (Op.addHookOp i h) =
        ⟨some GoErr.txDone, s, [], []⟩ := by
      simp [step, TxAddEndHook, hg]
    rw [hstep]
    exact ⟨rfl, rfl, hInv, h0, rfl⟩

theorem run_dead (ops : List Op) (s : TxState) (hInv : Inv s)
    (h0 : done0 s = true) :
    Inv (run s ops).fin ∧ done0 (run s ops).fin = true ∧
    (run s ops).phys = [] ∧ (run s ops).hk = [] ∧
    hooks0 (run s ops).fin = hooks0 s := by
  induction ops generalizing s with
  | nil => exact ⟨hInv, h0, rfl, rfl, rfl⟩
  | cons op ops ih =>
    obtain ⟨hph, hhk, hInv1, h01, hhooks⟩ := step_dead s op hInv h0
    obtain ⟨a, b, c, d, e⟩ := ih (step s op).st hInv1 h01
    refine ⟨a, b, ?_, ?_, ?_⟩
    · show (step s op).phys ++ (run (step s op).st ops).phys = []
      rw [hph, c]; rfl
    · show (step s op).hk ++ (run (step s op).st ops).hk = []
      rw [hhk, d]; rfl
    · show hooks0 (run (step s op).st ops).fin = hooks0 s
      rw [e, hhooks]

theorem rollback_perform (s : TxState) (i : Nat) (r : Option Nat)
    (hInv : Inv s) (ht : (getNode s i).done = false) (h0 : done0 s = false) :
    TxRollback r s i = (r.map GoErr.ext,
      setNode (setNode s i fun n => { n with done := true }) (getNode s i).root
        (fun n => { n with done := true }),
      [PhysAction.rollback r]) ∧
    Inv (TxRollback r s i).2.1 ∧ done0 (TxRollback r s i).2.1 = true := by
  have hi : i < s.nodes.length := lt_of_not_done s i ht
  have hroot : (getNode s i).root = 0 := hInv.2.2.1 i hi
  have hg : ((getNode s i).done || (getNode s (getNode s i).root).done) = false := by
    rw [ht, hroot]
    unfold done0 at h0
    simp [h0]
  have heq : TxRollback r s i = (r.map GoErr.ext,
      setNode (setNode s i fun n => { n with done := true }) (getNode s i).root
        (fun n => { n with done := true }),
      [PhysAction.rollback r]) := by
    simp [TxRollback, hg]
  refine ⟨heq, ?_, ?_⟩
  · rw [heq]
    exact Inv_setNode _ _ _ (fun n => rfl) (fun n => rfl)
      (Inv_setNode _ _ _ (fun n => rfl) (fun n => rfl) hInv)
  · rw [heq]
    show done0 (setNode (setNode s i _) (getNode s i).root _) = true
    rw [hroot]
    unfold done0
    rw [getNode_setNode]
    have hlen : 0 < (setNode s i fun n => { n with done := true }).nodes.length := by
      rw [length_setNode]; exact hInv.1
    rw [if_pos ⟨rfl, hlen⟩]

theorem step_live (s : TxState) (op : Op) (hInv : Inv s) (h0 : done0 s = false) :
    Inv (step s op).st ∧
    ( (done0 (step s op).st = false ∧ (step s op).phys = [] ∧ (step s op).hk = [])
    ∨ (done0 (step s op).st = true ∧ (step s op).phys = [PhysAction.commit none] ∧
        (step s op).hk = (runHooks (hooks0 s)).2 ∧
        hooks0 (step s op).st = hooks0 s ∧
        (∃ i rErr, op = Op.commitOp i none rErr))
    ∨ (done0 (step s op).st = true ∧ (step s op).hk = [] ∧
        (∃ e r, (step s op).phys =
            [PhysAction.commit (some e), PhysAction.rollback r] ∧
          (∃ i, op = Op.commitOp i (some e) r)))
    ∨ (done0 (step s op).st = true ∧ (step s op).hk = [] ∧
        (∃ r, (step s op).phys = [PhysAction.rollback r]) ∧
        ((∃ i r, op = Op.rollbackOp i r) ∨ (∃ i r, op = Op.finishOp i r) ∨
          (step s op).res = some GoErr.childrenNotDone)) ) := by
  cases op with
  | beginOp p =>
    refine ⟨Inv_begin s p hInv, Or.inl ⟨?_, rfl, rfl⟩⟩
    show done0 (TxBegin s p).1 = false
    rw [done0_begin s p hInv.1]; exact h0
  | addHookOp i h =>
    by_cases hg : ((getNode s i).done || (getNode s (getNode s i).root).done) = true
    · have hstep : step s (Op.addHookOp i h) = ⟨some GoErr.txDone, s, [], []⟩ := by
        simp [step, TxAddEndHook, hg]
      rw [hstep]
      exact ⟨hInv, Or.inl ⟨h0, rfl, rfl⟩⟩
    · have hg' : ((getNode s i).done || (getNode s (getNode s i).root).done) = false := by
        simpa using hg
      have hstep : step s (Op.addHookOp i h) = ⟨none,
          setNode s (getNode s i).root (fun n => { n with hooks := n.hooks ++ [h] }),
          [], []⟩ := by
        simp [step, TxAddEndHook, hg']
      rw [hstep]
      refine ⟨Inv_setNode _ _ _ (fun n => rfl) (fun n => rfl) hInv,
        Or.inl ⟨?_, rfl, rfl⟩⟩
      show done0 (setNode s (getNode s i).root _) = false
      unfold done0
      rw [done_setNode_pres s (getNode s i).root
        (fun n => { n with hooks := n.hooks ++ [h] }) 0 (fun n => rfl)]
      exact h0
  | rollbackOp i r =>
    by_cases ht : (getNode s i).done = true
    · have hg : ((getNode s i).done || (getNode s (getNode s i).root).done) = true := by
        simp [ht]
      have hstep : step s (Op.rollbackOp i r) = ⟨some GoErr.txDone, s, [], []⟩ := by
        simp [step, TxRollback, hg]
      rw [hstep]
      exact ⟨hInv, Or.inl ⟨h0, rfl, rfl⟩⟩
    · have ht' : (getNode s i).done = false := by simpa using ht
      obtain ⟨heq, hInv', hdone'⟩ := rollback_perform s i r hInv ht' h0
      have hstep : step s (Op.rollbackOp i r) =
          ⟨(TxRollback r s i).1, (TxRollback r s i).2.1, (TxRollback r s i).2.2, []⟩ := rfl
      rw [hstep]
      refine ⟨hInv', Or.inr (Or.inr (Or.inr ⟨hdone', rfl, ⟨r, ?_⟩,
        Or.inl ⟨i, r, rfl⟩⟩))⟩
      rw [heq]
  | finishOp i r =>
    by_cases hg : ((getNode s i).done || (getNode s (getNode s i).root).done) = true
    · have hstep : step s (Op.finishOp i r) = ⟨none, s, [], []⟩ := by
        simp [step, TxFinish, hg]
      rw [hstep]
      exact ⟨hInv, Or.inl ⟨h0, rfl, rfl⟩⟩
    · have hg' : ((getNode s i).done || (getNode s (getNode s i).root).done) = false := by
        simpa using hg
      have ht' : (getNode s i).done = false := by
        rcases Bool.or_eq_false_iff.mp hg' with ⟨h1, _⟩
        exact h1
      have hfin : TxFinish r s i = TxRollback r s i := by
        simp [TxFinish, hg']
      obtain ⟨heq, hInv', hdone'⟩ := rollback_perform s i r hInv ht' h0
      have hstep : step s (Op.finishOp i r) =
          ⟨(TxFinish r s i).1, (TxFinish r s i).2.1, (TxFinish r s i).2.2, []⟩ := rfl
      rw [hstep, hfin]
      refine ⟨hInv', Or.inr (Or.inr (Or.inr ⟨hdone', rfl, ⟨r, ?_⟩,
        Or.inr (Or.inl ⟨i, r, rfl⟩)⟩))⟩
      rw [heq]
  | commitOp i cErr rErr =>
    by_cases ht : (getNode s i).done = true
    · have hg : ((getNode s i).done || (getNode s (getNode s i).root).done) = true := by
        simp [ht]
      have hstep : step s (Op.commitOp i cErr rErr) =
          ⟨some GoErr.txDone, s, [], []⟩ := by
        simp [step, TxCommit, hg]
      rw [hstep]
      exact ⟨hInv, Or.inl ⟨h0, rfl, rfl⟩⟩
    · have ht' : (getNode s i).done = false := by simpa using ht
      have hi : i < s.nodes.length := lt_of_not_done s i ht'
      have hroot : (getNode s i).root = 0 := hInv.2.2.1 i hi
      have hg : ((getNode s i).done || (getNode s (getNode s i).root).done) = false := by
        rw [ht', hroot]
        unfold done0 at h0
        simp [h0]
      by_cases hcc : (getNode s i).childCount = 0
      · rcases hpar : (getNode s i).parent with _ | p
        · -- parentless node: it is the root-of-nesting
          have hi0 : i = 0 := hInv.2.2.2 i hi hpar
          subst hi0
          cases cErr with
          | some e =>
            have hstep : step s (Op.commitOp 0 (some e) rErr) =
                ⟨rErr.map GoErr.ext,
                 setNode s 0 (fun n => { n with done := true }),
                 [PhysAction.commit (some e), PhysAction.rollback rErr], []⟩ := by
              simp [step, TxCommit, hg, hcc, hpar]
            rw [hstep]
            refine ⟨Inv_setNode _ _ _ (fun n => rfl) (fun n => rfl) hInv,
              Or.inr (Or.inr (Or.inl ⟨?_, rfl, ⟨e, rErr, rfl, ⟨0, rfl⟩⟩⟩))⟩
            show done0 (setNode s 0 _) = true
            unfold done0
            rw [getNode_setNode, if_pos ⟨rfl, hInv.1⟩]
          | none =>
            have hhk : (getNode (setNode s 0 fun n => { n with done := true }) 0).hooks
                = hooks0 s :=
              hooks_setNode_pres _ _ _ _ (fun n => rfl)
            have hstep : step s (Op.commitOp 0 none rErr) =
                ⟨(runHooks (hooks0 s)).1,
                 setNode s 0 (fun n => { n with done := true }),
                 [PhysAction.commit none], (runHooks (hooks0 s)).2⟩ := by
              simp [step, TxCommit, hg, hcc, hpar, hhk]
            rw [hstep]
            refine ⟨Inv_setNode _ _ _ (fun n => rfl) (fun n => rfl) hInv,
              Or.inr (Or.inl ⟨?_, rfl, rfl, ?_, ⟨0, rErr, rfl⟩⟩)⟩
            · show done0 (setNode s 0 _) = true
              unfold done0
              rw [getNode_setNode, if_pos ⟨rfl, hInv.1⟩]
            · show hooks0 (setNode s 0 _) = hooks0 s
              exact hhk
        · -- node with a parent: logical commit only
          have hne : i ≠ 0 := by
            intro hc
            rw [hc] at hpar
            rw [hInv.2.1] at hpar
            exact Option.noConfusion hpar
          have hstep : step s (Op.commitOp i cErr rErr) = ⟨none,
              setNode (setNode s i fun n => { n with done := true }) p
                (fun n => { n with childCount := n.childCount - 1 }), [], []⟩ := by
            simp [step, TxCommit, hg, hcc, hpar]
          rw [hstep]
          refine ⟨Inv_setNode _ _ _ (fun n => rfl) (fun n => rfl)
            (Inv_setNode _ _ _ (fun n => rfl) (fun n => rfl) hInv),
            Or.inl ⟨?_, rfl, rfl⟩⟩
          show done0 (setNode (setNode s i _) p _) = false
          unfold done0
          rw [done_setNode_pres (setNode s i fun n => { n with done := true }) p
            (fun n => { n with childCount := n.childCount - 1 }) 0 (fun n => rfl)]
          rw [getNode_setNode, if_neg (fun hc => hne hc.1.symm)]
          exact h0
      · -- children not done: implicit whole-tree rollback
        have hstep : step s (Op.commitOp i cErr rErr) =
            ⟨some GoErr.childrenNotDone, (TxRollback rErr s i).2.1,
             (TxRollback rErr s i).2.2, []⟩ := by
          simp [step, TxCommit, hg, hcc]
        obtain ⟨heq, hInv', hdone'⟩ := rollback_perform s i rErr hInv ht' h0
        rw [hstep]
        refine ⟨hInv', Or.inr (Or.inr (Or.inr ⟨hdone', rfl, ⟨rErr, ?_⟩,
          Or.inr (Or.inr rfl)⟩))⟩
        rw [heq]

end txmanager

namespace txmanager

theorem run_live (ops : List Op) (s : TxState) (hInv : Inv s)
    (h0 : done0 s = false) :
    Inv (run s ops).fin ∧
    ( (done0 (run s ops).fin = false ∧ (run s ops).phys = [] ∧
        (run s ops).hk = [])
    ∨ (done0 (run s ops).fin = true ∧
        (run s ops).phys = [PhysAction.commit none] ∧
        (run s ops).hk = (runHooks (hooks0 (run s ops).fin)).2 ∧
        (∃ i rErr, Op.commitOp i none rErr ∈ ops))
    ∨ (done0 (run s ops).fin = true ∧ (run s ops).hk = [] ∧
        (∃ e r, (run s ops).phys =
            [PhysAction.commit (some e), PhysAction.rollback r] ∧
          (∃ i, Op.commitOp i (some e) r ∈ ops)))
    ∨ (done0 (run s ops).fin = true ∧ (run s ops).hk = [] ∧
        (∃ r, (run s ops).phys = [PhysAction.rollback r]) ∧
        ((∃ i r, Op.rollbackOp i r ∈ ops) ∨ (∃ i r, Op.finishOp i r ∈ ops) ∨
          some GoErr.childrenNotDone ∈ (run s ops).results)) ) := by
  induction ops generalizing s with
  | nil => exact ⟨hInv, Or.inl ⟨h0, rfl, rfl⟩⟩
  | cons op ops ih =>
    obtain ⟨hInv1, hdisc⟩ := step_live s op hInv h0
    have hfin : (run s (op :: ops)).fin = (run (step s op).st ops).fin := rfl
    have hres : (run s (op :: ops)).results =
        (step s op).res :: (run (step s op).st ops).results := rfl
    have hphys : (run s (op :: ops)).phys =
        (step s op).phys ++ (run (step s op).st ops).phys := rfl
    have hhk : (run s (op :: ops)).hk =
        (step s op).hk ++ (run (step s op).st ops).hk := rfl
    rcases hdisc with ⟨hd, hp1, hk1⟩ | ⟨hd, hp1, hk1, hho, i, rr, hop⟩ |
      ⟨hd, hk1, e, r, hp1, i, hop⟩ | ⟨hd, hk1, ⟨r, hp1⟩, hsrc⟩
    · -- silent live step: recurse
      obtain ⟨hInv2, hdisc2⟩ := ih (step s op).st hInv1 hd
      refine ⟨by rw [hfin]; exact hInv2, ?_⟩
      rw [hfin, hres, hphys, hhk, hp1, hk1]
      simp only [List.nil_append]
      rcases hdisc2 with h | h | h | h
      · exact Or.inl h
      · obtain ⟨a, b, c, j, rj, hm⟩ := h
        exact Or.inr (Or.inl ⟨a, b, c, j, rj, List.mem_cons_of_mem _ hm⟩)
      · obtain ⟨a, b, ej, rj, c, j, hm⟩ := h
        exact Or.inr (Or.inr (Or.inl ⟨a, b, ej, rj, c, j,
          List.mem_cons_of_mem _ hm⟩))
      · obtain ⟨a, b, c, hsrc2⟩ := h
        refine Or.inr (Or.inr (Or.inr ⟨a, b, c, ?_⟩))
        rcases hsrc2 with ⟨j, rj, hm⟩ | ⟨j, rj, hm⟩ | hm
        · exact Or.inl ⟨j, rj, List.mem_cons_of_mem _ hm⟩
        · exact Or.inr (Or.inl ⟨j, rj, List.mem_cons_of_mem _ hm⟩)
        · exact Or.inr (Or.inr (List.mem_cons_of_mem _ hm))
    · -- terminal: successful physical COMMIT at the root
      obtain ⟨a, b, c, d, e2⟩ := run_dead ops (step s op).st hInv1 hd
      refine ⟨by rw [hfin]; exact a, Or.inr (Or.inl ⟨?_, ?_, ?_, ?_⟩)⟩
      · rw [hfin]; exact b
      · rw [hphys, hp1, c]; rfl
      · rw [hhk, hk1, d, List.append_nil, hfin, e2, hho]
      · exact ⟨i, rr, by rw [hop]; exact List.mem_cons_self _ _⟩
    · -- terminal: failed COMMIT with fallback ROLLBACK at the root
      obtain ⟨a, b, c, d, _⟩ := run_dead ops (step s op).st hInv1 hd
      refine ⟨by rw [hfin]; exact a, Or.inr (Or.inr (Or.inl ⟨?_, ?_, ?_⟩))⟩
      · rw [hfin]; exact b
      · rw [hhk, hk1, d]; rfl
      · refine ⟨e, r, ?_, ⟨i, by rw [hop]; exact List.mem_cons_self _ _⟩⟩
        rw [hphys, hp1, c]; rfl
    · -- terminal: physical ROLLBACK
      obtain ⟨a, b, c, d, _⟩ := run_dead ops (step s op).st hInv1 hd
      refine ⟨by rw [hfin]; exact a, Or.inr (Or.inr (Or.inr
        ⟨?_, ?_, ⟨r, ?_⟩, ?_⟩))⟩
      · rw [hfin]; exact b
      · rw [hhk, hk1, d]; rfl
      · rw [hphys, hp1, c]; rfl
      · rcases hsrc with ⟨j, rj, hop⟩ | ⟨j, rj, hop⟩ | hres1
        · exact Or.inl ⟨j, rj, by rw [hop]; exact List.mem_cons_self _ _⟩
        · exact Or.inr (Or.inl ⟨j, rj, by rw [hop]; exact List.mem_cons_self _ _⟩)
        · refine Or.inr (Or.inr ?_)
          rw [hres, ← hres1]
          exact List.mem_cons_self _ _

end txmanager

namespace savepoint

theorem length_setNodeSP (s : TxState) (i : Nat) (f : Node → Node) :
    (setNode s i f).nodes.length = s.nodes.length := by
  simp [setNode]

theorem getNode_setNodeSP (s : TxState) (i : Nat) (f : Node → Node) (j : Nat) :
    getNode (setNode s i f) j =
      if j = i ∧ i < s.nodes.length then f (getNode s i) else getNode s j := by
  by_cases h1 : j = i
  · subst h1
    by_cases h2 : j < s.nodes.length
    · rw [if_pos ⟨rfl, h2⟩]
      simp only [getNode, setNode]
      exact getD_set_self _ _ _ _ h2
    · rw [if_neg (fun hc => h2 hc.2)]
      simp only [getNode, setNode]
      rw [getD_oob _ _ _ (by simpa using h2), getD_oob _ _ _ h2]
  · rw [if_neg (fun hc => h1 hc.1)]
    simp only [getNode, setNode]
    exact getD_set_ne _ _ _ _ _ h1

theorem lt_of_not_doneSP (s : TxState) (i : Nat)
    (h : (getNode s i).done = false) : i < s.nodes.length := by
  by_contra hc
  rw [getNode, getD_oob _ _ _ hc] at h
  simp [defaultNode] at h

theorem done_setNode_presSP (s : TxState) (i : Nat) (f : Node → Node) (j : Nat)
    (hf : ∀ n, (f n).done = n.done) :
    (getNode (setNode s i f) j).done = (getNode s j).done := by
  rw [getNode_setNodeSP]
  by_cases hc : j = i ∧ i < s.nodes.length
  · rw [if_pos hc, hf, hc.1]
  · rw [if_neg hc]

theorem root_setNode_presSP (s : TxState) (i : Nat) (f : Node → Node) (j : Nat)
    (hf : ∀ n, (f n).root = n.root) :
    (getNode (setNode s i f) j).root = (getNode s j).root := by
  rw [getNode_setNodeSP]
  by_cases hc : j = i ∧ i < s.nodes.length
  · rw [if_pos hc, hf, hc.1]
  · rw [if_neg hc]

theorem hooks_setNode_presSP (s : TxState) (i : Nat) (f : Node → Node) (j : Nat)
    (hf : ∀ n, (f n).hooks = n.hooks) :
    (getNode (setNode s i f) j).hooks = (getNode s j).hooks := by
  rw [getNode_setNodeSP]
  by_cases hc : j = i ∧ i < s.nodes.length
  · rw [if_pos hc, hf, hc.1]
  · rw [if_neg hc]

end savepoint

/-! ### Claims -/

/-- C1 counterexample.  The claim says a failed physical COMMIT at the
root-of-nesting makes TxCommit return the original commit error.  On the
fresh one-node tree, with the COMMIT failing with error 1 and the fallback
ROLLBACK succeeding, `tx.TxCommit` issues COMMIT then ROLLBACK but returns
`nil` (the rollback's result), not the commit error: the code ends with
`return t.Rollback()`, discarding the commit error. -/
theorem C1_counterexample :
    (txmanager.TxCommit (some 1) none txmanager.initState 0).2.2.1 =
      [PhysAction.commit (some 1), PhysAction.rollback none] ∧
    (txmanager.TxCommit (some 1) none txmanager.initState 0).1 = none ∧
    (txmanager.TxCommit (some 1) none txmanager.initState 0).1 ≠
      some (GoErr.ext 1) := by
  refine ⟨by decide, by decide, by decide⟩

/-- C1 amended.  For every root-of-nesting node (live, no open children, no
parent), when TxCommit issues the physical COMMIT and that COMMIT returns an
error, the implementation falls back to a physical ROLLBACK and TxCommit
returns the ROLLBACK's result — `nil` when the rollback succeeds, the
rollback's own error otherwise; the original commit error is discarded.  The
node is still marked done.  This holds in both the counting variant and the
savepoint variant. -/
theorem C1_amended
    (s : txmanager.TxState) (i e : Nat) (rErr : Option Nat)
    (hd : (txmanager.getNode s i).done = false)
    (hr : (txmanager.getNode s (txmanager.getNode s i).root).done = false)
    (hc : (txmanager.getNode s i).childCount = 0)
    (hp : (txmanager.getNode s i).parent = none)
    (s' : savepoint.TxState) (i' e' : Nat) (relErr' rErr' rbErr' : Option Nat)
    (hd' : (savepoint.getNode s' i').done = false)
    (hr' : (savepoint.getNode s' (savepoint.getNode s' i').root).done = false)
    (hc' : (savepoint.getNode s' i').childCount = 0)
    (hp' : (savepoint.getNode s' i').parent = none) :
    (txmanager.TxCommit (some e) rErr s i).1 = rErr.map GoErr.ext ∧
    (txmanager.TxCommit (some e) rErr s i).2.2.1 =
      [PhysAction.commit (some e), PhysAction.rollback rErr] ∧
    (txmanager.getNode (txmanager.TxCommit (some e) rErr s i).2.1 i).done = true ∧
    (savepoint.TxCommit relErr' (some e') rErr' rbErr' s' i').1 =
      rErr'.map GoErr.ext ∧
    (savepoint.TxCommit relErr' (some e') rErr' rbErr' s' i').2.2.1 =
      [PhysAction.commit (some e'), PhysAction.rollback rErr'] ∧
    (savepoint.getNode
      (savepoint.TxCommit relErr' (some e') rErr' rbErr' s' i').2.1 i').done =
      true := by
  have hg : ((txmanager.getNode s i).done ||
      (txmanager.getNode s (txmanager.getNode s i).root).done) = false := by
    rw [hd, hr]; rfl
  have hi := txmanager.lt_of_not_done s i hd
  have hg' : ((savepoint.getNode s' i').done ||
      (savepoint.getNode s' (savepoint.getNode s' i').root).done) = false := by
    rw [hd', hr']; rfl
  have hi' := savepoint.lt_of_not_doneSP s' i' hd'
  refine ⟨?_, ?_, ?_, ?_, ?_, ?_⟩
  · simp [txmanager.TxCommit, hg, hc, hp]
  · simp [txmanager.TxCommit, hg, hc, hp]
  · have hstep : (txmanager.TxCommit (some e) rErr s i).2.1 =
        txmanager.setNode s i (fun n => { n with done := true }) := by
      simp [txmanager.TxCommit, hg, hc, hp]
    rw [hstep, txmanager.getNode_setNode, if_pos ⟨rfl, hi⟩]
  · simp [savepoint.TxCommit, hg', hc', hp']
  · simp [savepoint.TxCommit, hg', hc', hp']
  · have hstep : (savepoint.TxCommit relErr' (some e') rErr' rbErr' s' i').2.1 =
        savepoint.setNode s' i' (fun n => { n with done := true }) := by
      simp [savepoint.TxCommit, hg', hc', hp']
    rw [hstep, savepoint.getNode_setNodeSP, if_pos ⟨rfl, hi'⟩]

/-- C1 amended, witnessed on the fresh one-node tree of each variant with the
COMMIT failing and the fallback ROLLBACK failing too: the rollback's error is
the one returned. -/
theorem C1_amended_witness :
    (txmanager.TxCommit (some 1) (some 2) txmanager.initState 0).1 =
      some (GoErr.ext 2) ∧
    (savepoint.TxCommit none (some 3) (some 4) none savepoint.initState 0).1 =
      some (GoErr.ext 4) := by
  have h := C1_amended txmanager.initState 0 1 (some 2)
    (by decide) (by decide) (by decide) (by decide)
    savepoint.initState 0 3 none (some 4) none
    (by decide) (by decide) (by decide) (by decide)
  exact ⟨h.1, h.2.2.2.1⟩

/-- C2.  Counting variant.  (Step part) TxCommit on a live node with a parent
and zero open children returns nil, issues no physical SQL, runs no hook,
marks the node done and decrements the parent's child count.  (Trace part)
For every sequence of nested TxBegin/TxCommit calls from the fresh tree in
which every physical call succeeds and every commit returns nil, the physical
trace is exactly one COMMIT when the outermost node ended up committed and is
empty otherwise — the physical COMMIT fires at most once and only via the
outermost node. -/
theorem C2_commit_once
    (s : txmanager.TxState) (i p : Nat) (cErr rErr : Option Nat)
    (hd : (txmanager.getNode s i).done = false)
    (hr : (txmanager.getNode s (txmanager.getNode s i).root).done = false)
    (hc : (txmanager.getNode s i).childCount = 0)
    (hp : (txmanager.getNode s i).parent = some p)
    (hpi : p ≠ i) (hplt : p < s.nodes.length)
    (ops : List txmanager.Op)
    (hclean : ∀ op ∈ ops, txmanager.cleanOp op = true)
    (hok : ∀ r ∈ (txmanager.run txmanager.initState ops).results, r = none) :
    (txmanager.TxCommit cErr rErr s i).1 = none ∧
    (txmanager.TxCommit cErr rErr s i).2.2.1 = [] ∧
    (txmanager.TxCommit cErr rErr s i).2.2.2 = [] ∧
    (txmanager.getNode (txmanager.TxCommit cErr rErr s i).2.1 i).done = true ∧
    (txmanager.getNode (txmanager.TxCommit cErr rErr s i).2.1 p).childCount =
      (txmanager.getNode s p).childCount - 1 ∧
    (txmanager.run txmanager.initState ops).phys =
      (if txmanager.done0 (txmanager.run txmanager.initState ops).fin
       then [PhysAction.commit none] else []) := by
  have hg : ((txmanager.getNode s i).done ||
      (txmanager.getNode s (txmanager.getNode s i).root).done) = false := by
    rw [hd, hr]; rfl
  have hi := txmanager.lt_of_not_done s i hd
  have hstep : (txmanager.TxCommit cErr rErr s i).2.1 =
      txmanager.setNode
        (txmanager.setNode s i (fun n => { n with done := true })) p
        (fun n => { n with childCount := n.childCount - 1 }) := by
    simp [txmanager.TxCommit, hg, hc, hp]
  refine ⟨?_, ?_, ?_, ?_, ?_, ?_⟩
  · simp [txmanager.TxCommit, hg, hc, hp]
  · simp [txmanager.TxCommit, hg, hc, hp]
  · simp [txmanager.TxCommit, hg, hc, hp]
  · rw [hstep]
    rw [txmanager.done_setNode_pres
      (txmanager.setNode s i fun n => { n with done := true }) p
      (fun n => { n with childCount := n.childCount - 1 }) i (fun n => rfl)]
    rw [txmanager.getNode_setNode, if_pos ⟨rfl, hi⟩]
  · rw [hstep]
    have hplt1 : p <
        (txmanager.setNode s i fun n => { n with done := true }).nodes.length := by
      rw [txmanager.length_setNode]; exact hplt
    rw [txmanager.getNode_setNode, if_pos ⟨rfl, hplt1⟩]
    show (txmanager.getNode
        (txmanager.setNode s i fun n => { n with done := true }) p).childCount - 1 =
      (txmanager.getNode s p).childCount - 1
    rw [txmanager.getNode_setNode, if_neg (fun hcp => hpi hcp.1)]
  · have hInv0 : txmanager.Inv txmanager.initState := by
      refine ⟨by decide, by decide, ?_, ?_⟩
      · intro j hj
        have hj0 : j = 0 := Nat.lt_one_iff.mp (by simpa [txmanager.initState] using hj)
        subst hj0; decide
      · intro j hj _
        exact Nat.lt_one_iff.mp (by simpa [txmanager.initState] using hj)
    obtain ⟨_, hdisc⟩ := txmanager.run_live ops txmanager.initState hInv0 (by decide)
    rcases hdisc with ⟨hf, hp2, _⟩ | ⟨hf, hp2, _, _⟩ |
      ⟨_, _, e2, r2, _, j2, hm⟩ | ⟨_, _, _, hsrc⟩
    · rw [hp2, hf]; rfl
    · rw [hp2, hf]; rfl
    · have := hclean _ hm
      simp [txmanager.cleanOp] at this
    · rcases hsrc with ⟨j2, r2, hm⟩ | ⟨j2, r2, hm⟩ | hm
      · have := hclean _ hm
        simp [txmanager.cleanOp] at this
      · have := hclean _ hm
        simp [txmanager.cleanOp] at this
      · have := hok _ hm
        simp at this

/-- C2, witnessed on the depth-two all-successful trace: the child's commit is
silent and the full run issues exactly one physical COMMIT. -/
theorem C2_commit_once_witness :
    (txmanager.TxCommit none none (txmanager.TxBegin txmanager.initState 0).1 1).1 =
      none ∧
    (txmanager.run txmanager.initState
      [txmanager.Op.beginOp 0, txmanager.Op.commitOp 1 none none,
       txmanager.Op.commitOp 0 none none]).phys =
      (if txmanager.done0 (txmanager.run txmanager.initState
          [txmanager.Op.beginOp 0, txmanager.Op.commitOp 1 none none,
           txmanager.Op.commitOp 0 none none]).fin
       then [PhysAction.commit none] else []) := by
  have h := C2_commit_once (txmanager.TxBegin txmanager.initState 0).1 1 0 none none
    (by decide) (by decide) (by decide) (by decide) (by decide) (by decide)
    [txmanager.Op.beginOp 0, txmanager.Op.commitOp 1 none none,
     txmanager.Op.commitOp 0 none none]
    (by decide) (by decide)
  exact ⟨h.1, h.2.2.2.2.2⟩

/-- C3.  Counting variant.  A TxRollback on a live node of a live tree
returns the physical ROLLBACK's result, issues exactly one physical ROLLBACK,
and marks both that node and the root-of-nesting done; once the root is done,
TxCommit and TxRollback on any node of the tree return `sql.ErrTxDone`
without touching the state or issuing physical SQL, and any continuation of
calls from a terminal well-formed tree issues no physical SQL at all and
leaves the tree terminal. -/
theorem C3_rollback_terminates_tree
    (s : txmanager.TxState) (i : Nat) (rErr : Option Nat)
    (hInv : txmanager.Inv s)
    (hd : (txmanager.getNode s i).done = false)
    (h0 : txmanager.done0 s = false)
    (s2 : txmanager.TxState) (j : Nat)
    (hj : (txmanager.getNode s2 (txmanager.getNode s2 j).root).done = true)
    (cErr2 rErr2 rErr3 : Option Nat)
    (ops : List txmanager.Op) (s4 : txmanager.TxState)
    (hInv4 : txmanager.Inv s4) (h04 : txmanager.done0 s4 = true) :
    (txmanager.TxRollback rErr s i).1 = rErr.map GoErr.ext ∧
    (txmanager.TxRollback rErr s i).2.2 = [PhysAction.rollback rErr] ∧
    (txmanager.getNode (txmanager.TxRollback rErr s i).2.1 i).done = true ∧
    txmanager.done0 (txmanager.TxRollback rErr s i).2.1 = true ∧
    txmanager.TxCommit cErr2 rErr2 s2 j = (some GoErr.txDone, s2, [], []) ∧
    txmanager.TxRollback rErr3 s2 j = (some GoErr.txDone, s2, []) ∧
    (txmanager.run s4 ops).phys = [] ∧
    txmanager.done0 (txmanager.run s4 ops).fin = true := by
  obtain ⟨heq, hInv', hdone'⟩ := txmanager.rollback_perform s i rErr hInv hd h0
  have hi := txmanager.lt_of_not_done s i hd
  have hgj : ((txmanager.getNode s2 j).done ||
      (txmanager.getNode s2 (txmanager.getNode s2 j).root).done) = true := by
    simp [hj]
  obtain ⟨_, hdead, hphys4, _, _⟩ := txmanager.run_dead ops s4 hInv4 h04
  refine ⟨?_, ?_, ?_, hdone', ?_, ?_, hphys4, hdead⟩
  · rw [heq]
  · rw [heq]
  · rw [heq]
    show (txmanager.getNode (txmanager.setNode
      (txmanager.setNode s i fun n => { n with done := true })
      (txmanager.getNode s i).root fun n => { n with done := true }) i).done = true
    by_cases hri : i = (txmanager.getNode s i).root
    · have hlt : (txmanager.getNode s i).root <
          (txmanager.setNode s i fun n => { n with done := true }).nodes.length := by
        rw [txmanager.length_setNode, ← hri]; exact hi
      rw [txmanager.getNode_setNode, if_pos ⟨hri, hlt⟩]
    · rw [txmanager.getNode_setNode, if_neg (fun hc => hri hc.1)]
      rw [txmanager.getNode_setNode, if_pos ⟨rfl, hi⟩]
  · simp [txmanager.TxCommit, hgj]
  · simp [txmanager.TxRollback, hgj]

/-- C3, witnessed: roll back the child of a depth-two tree, then observe that
a commit of the root is inert and a further call sequence is silent. -/
theorem C3_rollback_terminates_tree_witness :
    (txmanager.TxRollback none (txmanager.TxBegin txmanager.initState 0).1 1).1 =
      none ∧
    txmanager.done0
      (txmanager.TxRollback none (txmanager.TxBegin txmanager.initState 0).1 1).2.1 =
      true ∧
    txmanager.TxCommit none none
      (txmanager.TxRollback none (txmanager.TxBegin txmanager.initState 0).1 1).2.1 0 =
      (some GoErr.txDone,
       (txmanager.TxRollback none (txmanager.TxBegin txmanager.initState 0).1 1).2.1,
       [], []) ∧
    (txmanager.run
      (txmanager.TxRollback none (txmanager.TxBegin txmanager.initState 0).1 1).2.1
      [txmanager.Op.commitOp 0 none none, txmanager.Op.rollbackOp 1 none]).phys =
      [] := by
  have h := C3_rollback_terminates_tree
    (txmanager.TxBegin txmanager.initState 0).1 1 none
    (by unfold txmanager.Inv; decide)
    (by decide) (by decide)
    (txmanager.TxRollback none (txmanager.TxBegin txmanager.initState 0).1 1).2.1 0
    (by decide) none none none
    [txmanager.Op.commitOp 0 none none, txmanager.Op.rollbackOp 1 none]
    (txmanager.TxRollback none (txmanager.TxBegin txmanager.initState 0).1 1).2.1
    (by unfold txmanager.Inv; decide)
    (by decide)
  exact ⟨h.1, h.2.2.2.1, h.2.2.2.2.1, h.2.2.2.2.2.2.1⟩

/-- C9.  Counting variant.  TxRollback sets the done flags before invoking the
physical Rollback, so when the physical ROLLBACK fails with error `e` the call
still leaves the node and the whole tree permanently terminal — subsequent
TxCommit/TxRollback on any node whose root is done return `sql.ErrTxDone` and
TxFinish returns nil, all without state change or physical SQL — and
TxRollback returns the physical error unchanged. -/
theorem C9_rollback_error_still_terminal
    (s : txmanager.TxState) (i e : Nat)
    (hInv : txmanager.Inv s)
    (hd : (txmanager.getNode s i).done = false)
    (h0 : txmanager.done0 s = false)
    (s2 : txmanager.TxState) (j : Nat)
    (hj : (txmanager.getNode s2 (txmanager.getNode s2 j).root).done = true)
    (cErr2 rErr2 rErr3 rErr4 : Option Nat) :
    (txmanager.TxRollback (some e) s i).1 = some (GoErr.ext e) ∧
    (txmanager.TxRollback (some e) s i).2.2 = [PhysAction.rollback (some e)] ∧
    (txmanager.getNode (txmanager.TxRollback (some e) s i).2.1 i).done = true ∧
    txmanager.done0 (txmanager.TxRollback (some e) s i).2.1 = true ∧
    txmanager.TxCommit cErr2 rErr2 s2 j = (some GoErr.txDone, s2, [], []) ∧
    txmanager.TxRollback rErr3 s2 j = (some GoErr.txDone, s2, []) ∧
    txmanager.TxFinish rErr4 s2 j = (none, s2, []) := by
  obtain ⟨heq, _, hdone'⟩ := txmanager.rollback_perform s i (some e) hInv hd h0
  have hi := txmanager.lt_of_not_done s i hd
  have hgj : ((txmanager.getNode s2 j).done ||
      (txmanager.getNode s2 (txmanager.getNode s2 j).root).done) = true := by
    simp [hj]
  refine ⟨?_, ?_, ?_, hdone', ?_, ?_, ?_⟩
  · rw [heq]; rfl
  · rw [heq]
  · rw [heq]
    show (txmanager.getNode (txmanager.setNode
      (txmanager.setNode s i fun n => { n with done := true })
      (txmanager.getNode s i).root fun n => { n with done := true }) i).done = true
    by_cases hri : i = (txmanager.getNode s i).root
    · have hlt : (txmanager.getNode s i).root <
          (txmanager.setNode s i fun n => { n with done := true }).nodes.length := by
        rw [txmanager.length_setNode, ← hri]; exact hi
      rw [txmanager.getNode_setNode, if_pos ⟨hri, hlt⟩]
    · rw [txmanager.getNode_setNode, if_neg (fun hc => hri hc.1)]
      rw [txmanager.getNode_setNode, if_pos ⟨rfl, hi⟩]
  · simp [txmanager.TxCommit, hgj]
  · simp [txmanager.TxRollback, hgj]
  · simp [txmanager.TxFinish, hgj]

/-- C9, witnessed: the root's rollback fails with error 7; the error comes
back unchanged, the tree is terminal, and later calls are inert. -/
theorem C9_rollback_error_still_terminal_witness :
    (txmanager.TxRollback (some 7) txmanager.initState 0).1 =
      some (GoErr.ext 7) ∧
    txmanager.done0 (txmanager.TxRollback (some 7) txmanager.initState 0).2.1 =
      true ∧
    txmanager.TxFinish (some 9)
      (txmanager.TxRollback (some 7) txmanager.initState 0).2.1 0 =
      (none, (txmanager.TxRollback (some 7) txmanager.initState 0).2.1, []) := by
  have h := C9_rollback_error_still_terminal txmanager.initState 0 7
    (by unfold txmanager.Inv; decide) (by decide) (by decide)
    (txmanager.TxRollback (some 7) txmanager.initState 0).2.1 0
    (by decide) none none none (some 9)
  exact ⟨h.1, h.2.2.2.1, h.2.2.2.2.2.2⟩

/-- C6.  TxCommit on a live node with a nonzero open-child count returns the
children-not-done error and, as a side effect, performs TxRollback: in the
counting variant this marks the node and the whole tree terminal and issues
exactly one physical ROLLBACK, runs no hooks, and decrements no child count
(the normal commit path's decrement does not happen).  In the savepoint
variant the same guard returns the same error and the internal rollback
issues ROLLBACK TO SAVEPOINT with the node's stored name. -/
theorem C6_children_not_done
    (s : txmanager.TxState) (i : Nat) (cErr rErr : Option Nat)
    (hInv : txmanager.Inv s)
    (hd : (txmanager.getNode s i).done = false)
    (h0 : txmanager.done0 s = false)
    (hcc : (txmanager.getNode s i).childCount ≠ 0)
    (s' : savepoint.TxState) (i' p' : Nat)
    (relErr' cErr' rErr' rbErr' : Option Nat)
    (hd' : (savepoint.getNode s' i').done = false)
    (hr' : (savepoint.getNode s' (savepoint.getNode s' i').root).done = false)
    (hcc' : (savepoint.getNode s' i').childCount ≠ 0)
    (hp' : (savepoint.getNode s' i').parent = some p') :
    (txmanager.TxCommit cErr rErr s i).1 = some GoErr.childrenNotDone ∧
    (txmanager.TxCommit cErr rErr s i).2.2.1 = [PhysAction.rollback rErr] ∧
    (txmanager.TxCommit cErr rErr s i).2.2.2 = [] ∧
    (txmanager.getNode (txmanager.TxCommit cErr rErr s i).2.1 i).done = true ∧
    txmanager.done0 (txmanager.TxCommit cErr rErr s i).2.1 = true ∧
    (∀ j, j < s.nodes.length →
      (txmanager.getNode (txmanager.TxCommit cErr rErr s i).2.1 j).childCount =
        (txmanager.getNode s j).childCount) ∧
    (savepoint.TxCommit relErr' cErr' rErr' rbErr' s' i').1 =
      some GoErr.childrenNotDone ∧
    (savepoint.TxCommit relErr' cErr' rErr' rbErr' s' i').2.2.1 =
      [PhysAction.sqlExec
        ("ROLLBACK TO SAVEPOINT " ++ (savepoint.getNode s' i').name) rbErr'] := by
  have hi := txmanager.lt_of_not_done s i hd
  have hroot : (txmanager.getNode s i).root = 0 := hInv.2.2.1 i hi
  have hg : ((txmanager.getNode s i).done ||
      (txmanager.getNode s (txmanager.getNode s i).root).done) = false := by
    rw [hd, hroot]
    unfold txmanager.done0 at h0
    simp [h0]
  obtain ⟨heq, _, hdone'⟩ := txmanager.rollback_perform s i rErr hInv hd h0
  have hstep : txmanager.TxCommit cErr rErr s i =
      (some GoErr.childrenNotDone, (txmanager.TxRollback rErr s i).2.1,
       (txmanager.TxRollback rErr s i).2.2, []) := by
    simp [txmanager.TxCommit, hg, hcc]
  have hg' : ((savepoint.getNode s' i').done ||
      (savepoint.getNode s' (savepoint.getNode s' i').root).done) = false := by
    rw [hd', hr']; rfl
  refine ⟨?_, ?_, ?_, ?_, ?_, ?_, ?_, ?_⟩
  · rw [hstep]
  · rw [hstep]
    show (txmanager.TxRollback rErr s i).2.2 = [PhysAction.rollback rErr]
    rw [heq]
  · rw [hstep]
  · rw [hstep]
    show (txmanager.getNode (txmanager.TxRollback rErr s i).2.1 i).done = true
    rw [heq]
    show (txmanager.getNode (txmanager.setNode
      (txmanager.setNode s i fun n => { n with done := true })
      (txmanager.getNode s i).root fun n => { n with done := true }) i).done = true
    by_cases hri : i = (txmanager.getNode s i).root
    · have hlt : (txmanager.getNode s i).root <
          (txmanager.setNode s i fun n => { n with done := true }).nodes.length := by
        rw [txmanager.length_setNode, ← hri]; exact hi
      rw [txmanager.getNode_setNode, if_pos ⟨hri, hlt⟩]
    · rw [txmanager.getNode_setNode, if_neg (fun hc => hri hc.1)]
      rw [txmanager.getNode_setNode, if_pos ⟨rfl, hi⟩]
  · rw [hstep]
    exact hdone'
  · intro j hj
    rw [hstep]
    show (txmanager.getNode (txmanager.TxRollback rErr s i).2.1 j).childCount =
      (txmanager.getNode s j).childCount
    rw [heq]
    rw [txmanager.childCount_setNode_pres
      (txmanager.setNode s i fun n => { n with done := true })
      (txmanager.getNode s i).root (fun n => { n with done := true }) j
      (fun n => rfl)]
    rw [txmanager.childCount_setNode_pres s i
      (fun n => { n with done := true }) j (fun n => rfl)]
  · simp [savepoint.TxCommit, hg', hcc']
  · simp [savepoint.TxCommit, hg', hcc', savepoint.TxRollback, hp']

/-- C6, witnessed on a depth-two tree whose root still has an open child:
committing the root aborts the whole tree with one physical ROLLBACK; the
savepoint variant on the same shape returns the same error after a
ROLLBACK TO SAVEPOINT of the child's savepoint. -/
theorem C6_children_not_done_witness :
    (txmanager.TxCommit none none (txmanager.TxBegin txmanager.initState 0).1 0).1 =
      some GoErr.childrenNotDone ∧
    (txmanager.TxCommit none none (txmanager.TxBegin txmanager.initState 0).1 0).2.2.1 =
      [PhysAction.rollback none] ∧
    (savepoint.TxCommit none none none none
      (savepoint.TxBegin none
        (savepoint.TxBegin none savepoint.initState 0).2.1 1).2.1 1).1 =
      some GoErr.childrenNotDone := by
  have h := C6_children_not_done (txmanager.TxBegin txmanager.initState 0).1 0
    none none (by unfold txmanager.Inv; decide) (by decide) (by decide) (by decide)
    (savepoint.TxBegin none
      (savepoint.TxBegin none savepoint.initState 0).2.1 1).2.1 1 0
    none none none none
    (by decide) (by decide) (by decide) (by decide)
  exact ⟨h.1, h.2.1, h.2.2.2.2.2.2.1⟩

/-- C8.  TxFinish is idempotent in both variants: on a node that is already
done (or whose tree root is done) it is a no-op returning nil, with no state
change and no physical SQL; on a node not yet terminal it performs
TxRollback. -/
theorem C8_finish_idempotent
    (s : txmanager.TxState) (i : Nat) (rErr : Option Nat)
    (s' : savepoint.TxState) (i' : Nat) (physErr' : Option Nat) :
    ((txmanager.getNode s i).done = true ∨
      (txmanager.getNode s (txmanager.getNode s i).root).done = true →
      txmanager.TxFinish rErr s i = (none, s, [])) ∧
    ((txmanager.getNode s i).done = false →
      (txmanager.getNode s (txmanager.getNode s i).root).done = false →
      txmanager.TxFinish rErr s i = txmanager.TxRollback rErr s i) ∧
    ((savepoint.getNode s' i').done = true ∨
      (savepoint.getNode s' (savepoint.getNode s' i').root).done = true →
      savepoint.TxFinish physErr' s' i' = (none, s', [])) ∧
    ((savepoint.getNode s' i').done = false →
      (savepoint.getNode s' (savepoint.getNode s' i').root).done = false →
      savepoint.TxFinish physErr' s' i' = savepoint.TxRollback physErr' s' i') := by
  refine ⟨?_, ?_, ?_, ?_⟩
  · intro h
    have hg : ((txmanager.getNode s i).done ||
        (txmanager.getNode s (txmanager.getNode s i).root).done) = true := by
      rcases h with h | h <;> simp [h]
    simp [txmanager.TxFinish, hg]
  · intro h1 h2
    have hg : ((txmanager.getNode s i).done ||
        (txmanager.getNode s (txmanager.getNode s i).root).done) = false := by
      rw [h1, h2]; rfl
    simp [txmanager.TxFinish, hg]
  · intro h
    have hg : ((savepoint.getNode s' i').done ||
        (savepoint.getNode s' (savepoint.getNode s' i').root).done) = true := by
      rcases h with h | h <;> simp [h]
    simp [savepoint.TxFinish, hg]
  · intro h1 h2
    have hg : ((savepoint.getNode s' i').done ||
        (savepoint.getNode s' (savepoint.getNode s' i').root).done) = false := by
      rw [h1, h2]; rfl
    simp [savepoint.TxFinish, hg]

/-- C8, witnessed: after a rollback, TxFinish is a silent no-op returning nil
in both variants; before any terminal call it equals TxRollback. -/
theorem C8_finish_idempotent_witness :
    txmanager.TxFinish none (txmanager.TxRollback none txmanager.initState 0).2.1 0 =
      (none, (txmanager.TxRollback none txmanager.initState 0).2.1, []) ∧
    txmanager.TxFinish none txmanager.initState 0 =
      txmanager.TxRollback none txmanager.initState 0 ∧
    savepoint.TxFinish none (savepoint.TxRollback none savepoint.initState 0).2.1 0 =
      (none, (savepoint.TxRollback none savepoint.initState 0).2.1, []) ∧
    savepoint.TxFinish none savepoint.initState 0 =
      savepoint.TxRollback none savepoint.initState 0 := by
  have h1 := C8_finish_idempotent
    (txmanager.TxRollback none txmanager.initState 0).2.1 0 none
    (savepoint.TxRollback none savepoint.initState 0).2.1 0 none
  have h2 := C8_finish_idempotent txmanager.initState 0 none
    savepoint.initState 0 none
  exact ⟨h1.1 (Or.inl (by decide)), h2.2.1 (by decide) (by decide),
    h1.2.2.1 (Or.inl (by decide)), h2.2.2.2 (by decide) (by decide)⟩

/-- C4.  Savepoint variant.  TxRollback on a live non-root node of a live
tree issues exactly `ROLLBACK TO SAVEPOINT <name>` with the node's stored
savepoint name, marks only that node done (the tree root stays live and every
other node's done flag is unchanged), decrements the parent's child count,
and afterwards a TxRollback on the (still live) parent does not report
`sql.ErrTxDone` — the parent can still commit or roll back. -/
theorem C4_savepoint_partial_rollback
    (s : savepoint.TxState) (i p : Nat) (physErr rErr2 : Option Nat)
    (hd : (savepoint.getNode s i).done = false)
    (hr : (savepoint.getNode s (savepoint.getNode s i).root).done = false)
    (hp : (savepoint.getNode s i).parent = some p)
    (hpi : p ≠ i) (hplt : p < s.nodes.length)
    (hir : i ≠ (savepoint.getNode s i).root)
    (hpr : (savepoint.getNode s p).root = (savepoint.getNode s i).root)
    (hpd : (savepoint.getNode s p).done = false) :
    (savepoint.TxRollback physErr s i).1 = physErr.map GoErr.ext ∧
    (savepoint.TxRollback physErr s i).2.2 =
      [PhysAction.sqlExec
        ("ROLLBACK TO SAVEPOINT " ++ (savepoint.getNode s i).name) physErr] ∧
    (savepoint.getNode (savepoint.TxRollback physErr s i).2.1 i).done = true ∧
    (savepoint.getNode (savepoint.TxRollback physErr s i).2.1
      (savepoint.getNode s i).root).done = false ∧
    (∀ j, j < s.nodes.length → j ≠ i →
      (savepoint.getNode (savepoint.TxRollback physErr s i).2.1 j).done =
        (savepoint.getNode s j).done) ∧
    (savepoint.getNode (savepoint.TxRollback physErr s i).2.1 p).childCount =
      (savepoint.getNode s p).childCount - 1 ∧
    (savepoint.TxRollback rErr2 (savepoint.TxRollback physErr s i).2.1 p).1 ≠
      some GoErr.txDone := by
  have hg : ((savepoint.getNode s i).done ||
      (savepoint.getNode s (savepoint.getNode s i).root).done) = false := by
    rw [hd, hr]; rfl
  have hi := savepoint.lt_of_not_doneSP s i hd
  have hstate : (savepoint.TxRollback physErr s i).2.1 =
      savepoint.setNode
        (savepoint.setNode s i fun n => { n with done := true }) p
        (fun n => { n with childCount := n.childCount - 1 }) := by
    simp [savepoint.TxRollback, hg, hp]
  have hrootdone : (savepoint.getNode (savepoint.TxRollback physErr s i).2.1
      (savepoint.getNode s i).root).done = false := by
    rw [hstate]
    rw [savepoint.done_setNode_presSP
      (savepoint.setNode s i fun n => { n with done := true }) p
      (fun n => { n with childCount := n.childCount - 1 })
      (savepoint.getNode s i).root (fun n => rfl)]
    rw [savepoint.getNode_setNodeSP, if_neg (fun hc => hir hc.1.symm)]
    exact hr
  have hdp : (savepoint.getNode (savepoint.TxRollback physErr s i).2.1 p).done
      = false := by
    rw [hstate]
    rw [savepoint.done_setNode_presSP
      (savepoint.setNode s i fun n => { n with done := true }) p
      (fun n => { n with childCount := n.childCount - 1 }) p (fun n => rfl)]
    rw [savepoint.getNode_setNodeSP, if_neg (fun hc => hpi hc.1)]
    exact hpd
  have hrp : (savepoint.getNode (savepoint.TxRollback physErr s i).2.1 p).root
      = (savepoint.getNode s p).root := by
    rw [hstate]
    rw [savepoint.root_setNode_presSP
      (savepoint.setNode s i fun n => { n with done := true }) p
      (fun n => { n with childCount := n.childCount - 1 }) p (fun n => rfl)]
    exact savepoint.root_setNode_presSP s i
      (fun n => { n with done := true }) p (fun n => rfl)
  refine ⟨?_, ?_, ?_, hrootdone, ?_, ?_, ?_⟩
  · simp [savepoint.TxRollback, hg, hp]
  · simp [savepoint.TxRollback, hg, hp]
  · rw [hstate]
    rw [savepoint.done_setNode_presSP
      (savepoint.setNode s i fun n => { n with done := true }) p
      (fun n => { n with childCount := n.childCount - 1 }) i (fun n => rfl)]
    rw [savepoint.getNode_setNodeSP, if_pos ⟨rfl, hi⟩]
  · intro j hj hne
    rw [hstate]
    rw [savepoint.done_setNode_presSP
      (savepoint.setNode s i fun n => { n with done := true }) p
      (fun n => { n with childCount := n.childCount - 1 }) j (fun n => rfl)]
    rw [savepoint.getNode_setNodeSP, if_neg (fun hc => hne hc.1)]
  · rw [hstate]
    have hplt1 : p <
        (savepoint.setNode s i fun n => { n with done := true }).nodes.length := by
      rw [savepoint.length_setNodeSP]; exact hplt
    rw [savepoint.getNode_setNodeSP, if_pos ⟨rfl, hplt1⟩]
    show (savepoint.getNode
        (savepoint.setNode s i fun n => { n with done := true }) p).childCount - 1 =
      (savepoint.getNode s p).childCount - 1
    rw [savepoint.getNode_setNodeSP, if_neg (fun hc => hpi hc.1)]
  · set R := (savepoint.TxRollback physErr s i).2.1 with hR
    rcases hq : (savepoint.getNode R p).parent with _ | q <;>
      cases rErr2 <;>
      simp [savepoint.TxRollback, hdp, hrp, hpr, hrootdone, hq]

/-- C4, witnessed on a depth-two savepoint tree: rolling back the child
issues ROLLBACK TO SAVEPOINT savepoint_1, leaves the root live, and the root
can still roll back. -/
theorem C4_savepoint_partial_rollback_witness :
    (savepoint.TxRollback none
      (savepoint.TxBegin none savepoint.initState 0).2.1 1).1 = none ∧
    (savepoint.TxRollback none
      (savepoint.TxBegin none savepoint.initState 0).2.1 1).2.2 =
      [PhysAction.sqlExec "ROLLBACK TO SAVEPOINT savepoint_1" none] ∧
    (savepoint.getNode (savepoint.TxRollback none
      (savepoint.TxBegin none savepoint.initState 0).2.1 1).2.1 0).done = false ∧
    (savepoint.TxRollback none (savepoint.TxRollback none
      (savepoint.TxBegin none savepoint.initState 0).2.1 1).2.1 0).1 ≠
      some GoErr.txDone := by
  have h := C4_savepoint_partial_rollback
    (savepoint.TxBegin none savepoint.initState 0).2.1 1 0 none none
    (by decide) (by decide) (by decide) (by decide) (by decide) (by decide)
    (by decide) (by decide)
  exact ⟨h.1, h.2.1, h.2.2.2.1, h.2.2.2.2.2.2⟩

/-- C10.  Savepoint variant.  When TxCommit on a live non-root node with no
open children issues RELEASE SAVEPOINT and the statement fails, TxCommit
returns that error, but the node was already marked done and the parent's
child count already decremented before the statement ran, and the node's
accumulated end hooks are not appended to the parent's hook slice — they are
discarded. -/
theorem C10_release_failure
    (s : savepoint.TxState) (i p e : Nat) (cErr rErr rbErr : Option Nat)
    (hd : (savepoint.getNode s i).done = false)
    (hr : (savepoint.getNode s (savepoint.getNode s i).root).done = false)
    (hcc : (savepoint.getNode s i).childCount = 0)
    (hp : (savepoint.getNode s i).parent = some p)
    (hpi : p ≠ i) (hplt : p < s.nodes.length) :
    (savepoint.TxCommit (some e) cErr rErr rbErr s i).1 = some (GoErr.ext e) ∧
    (savepoint.TxCommit (some e) cErr rErr rbErr s i).2.2.1 =
      [PhysAction.sqlExec
        ("RELEASE SAVEPOINT " ++ (savepoint.getNode s i).name) (some e)] ∧
    (savepoint.TxCommit (some e) cErr rErr rbErr s i).2.2.2 = [] ∧
    (savepoint.getNode
      (savepoint.TxCommit (some e) cErr rErr rbErr s i).2.1 i).done = true ∧
    (savepoint.getNode
      (savepoint.TxCommit (some e) cErr rErr rbErr s i).2.1 p).childCount =
      (savepoint.getNode s p).childCount - 1 ∧
    (savepoint.getNode
      (savepoint.TxCommit (some e) cErr rErr rbErr s i).2.1 p).hooks =
      (savepoint.getNode s p).hooks := by
  have hg : ((savepoint.getNode s i).done ||
      (savepoint.getNode s (savepoint.getNode s i).root).done) = false := by
    rw [hd, hr]; rfl
  have hi := savepoint.lt_of_not_doneSP s i hd
  have hstate : (savepoint.TxCommit (some e) cErr rErr rbErr s i).2.1 =
      savepoint.setNode
        (savepoint.setNode s i fun n => { n with done := true }) p
        (fun n => { n with childCount := n.childCount - 1 }) := by
    simp [savepoint.TxCommit, hg, hcc, hp]
  refine ⟨?_, ?_, ?_, ?_, ?_, ?_⟩
  · simp [savepoint.TxCommit, hg, hcc, hp]
  · simp [savepoint.TxCommit, hg, hcc, hp]
  · simp [savepoint.TxCommit, hg, hcc, hp]
  · rw [hstate]
    rw [savepoint.done_setNode_presSP
      (savepoint.setNode s i fun n => { n with done := true }) p
      (fun n => { n with childCount := n.childCount - 1 }) i (fun n => rfl)]
    rw [savepoint.getNode_setNodeSP, if_pos ⟨rfl, hi⟩]
  · rw [hstate]
    have hplt1 : p <
        (savepoint.setNode s i fun n => { n with done := true }).nodes.length := by
      rw [savepoint.length_setNodeSP]; exact hplt
    rw [savepoint.getNode_setNodeSP, if_pos ⟨rfl, hplt1⟩]
    show (savepoint.getNode
        (savepoint.setNode s i fun n => { n with done := true }) p).childCount - 1 =
      (savepoint.getNode s p).childCount - 1
    rw [savepoint.getNode_setNodeSP, if_neg (fun hc => hpi hc.1)]
  · rw [hstate]
    rw [savepoint.hooks_setNode_presSP
      (savepoint.setNode s i fun n => { n with done := true }) p
      (fun n => { n with childCount := n.childCount - 1 }) p (fun n => rfl)]
    exact savepoint.hooks_setNode_presSP s i
      (fun n => { n with done := true }) p (fun n => rfl)

/-- C10, witnessed on a depth-two savepoint tree whose child carries one
hook: the failing RELEASE surfaces error 5, the child is done, the root's
child count is back to 0, and the root's hook slice is still empty. -/
theorem C10_release_failure_witness :
    (savepoint.TxCommit (some 5) none none none
      (savepoint.TxAddEndHook
        (savepoint.TxBegin none savepoint.initState 0).2.1 1 ⟨1, none⟩).2 1).1 =
      some (GoErr.ext 5) ∧
    (savepoint.getNode (savepoint.TxCommit (some 5) none none none
      (savepoint.TxAddEndHook
        (savepoint.TxBegin none savepoint.initState 0).2.1 1 ⟨1, none⟩).2 1).2.1
      0).hooks = [] := by
  have h := C10_release_failure
    (savepoint.TxAddEndHook
      (savepoint.TxBegin none savepoint.initState 0).2.1 1 ⟨1, none⟩).2 1 0 5
    none none none
    (by decide) (by decide) (by decide) (by decide) (by decide) (by decide)
  refine ⟨h.1, ?_⟩
  rw [h.2.2.2.2.2]
  decide

/-- C5 counterexample.  The claim (covering both variants) says end hooks
registered via TxAddEndHook at any depth run exactly once iff the outermost
physical COMMIT succeeds, and never run if any level rolled back.  In the
savepoint variant, the trace below registers hook 1 on a child (registration
returns nil), rolls that child back, then commits a second child carrying
hook 2 and the root carrying hook 3.  The outermost physical COMMIT succeeds,
a level did roll back (`ROLLBACK TO SAVEPOINT savepoint_1` was issued), yet
hooks 2 and 3 execute (contradicting "never execute if any level rolled
back") and the registered hook 1 never executes (contradicting the "if and
only if" direction). -/
theorem C5_counterexample :
    PhysAction.commit none ∈ (savepoint.run savepoint.initState
      [savepoint.Op.beginOp 0 none, savepoint.Op.addHookOp 1 ⟨1, none⟩,
       savepoint.Op.rollbackOp 1 none, savepoint.Op.beginOp 0 none,
       savepoint.Op.addHookOp 2 ⟨2, none⟩,
       savepoint.Op.commitOp 2 none none none none,
       savepoint.Op.addHookOp 0 ⟨3, none⟩,
       savepoint.Op.commitOp 0 none none none none]).phys ∧
    PhysAction.sqlExec "ROLLBACK TO SAVEPOINT savepoint_1" none ∈
      (savepoint.run savepoint.initState
      [savepoint.Op.beginOp 0 none, savepoint.Op.addHookOp 1 ⟨1, none⟩,
       savepoint.Op.rollbackOp 1 none, savepoint.Op.beginOp 0 none,
       savepoint.Op.addHookOp 2 ⟨2, none⟩,
       savepoint.Op.commitOp 2 none none none none,
       savepoint.Op.addHookOp 0 ⟨3, none⟩,
       savepoint.Op.commitOp 0 none none none none]).phys ∧
    (savepoint.run savepoint.initState
      [savepoint.Op.beginOp 0 none, savepoint.Op.addHookOp 1 ⟨1, none⟩,
       savepoint.Op.rollbackOp 1 none, savepoint.Op.beginOp 0 none,
       savepoint.Op.addHookOp 2 ⟨2, none⟩,
       savepoint.Op.commitOp 2 none none none none,
       savepoint.Op.addHookOp 0 ⟨3, none⟩,
       savepoint.Op.commitOp 0 none none none none]).results.getD 1
      (some GoErr.txDone) = none ∧
    (savepoint.run savepoint.initState
      [savepoint.Op.beginOp 0 none, savepoint.Op.addHookOp 1 ⟨1, none⟩,
       savepoint.Op.rollbackOp 1 none, savepoint.Op.beginOp 0 none,
       savepoint.Op.addHookOp 2 ⟨2, none⟩,
       savepoint.Op.commitOp 2 none none none none,
       savepoint.Op.addHookOp 0 ⟨3, none⟩,
       savepoint.Op.commitOp 0 none none none none]).hk = [2, 3] ∧
    1 ∉ (savepoint.run savepoint.initState
      [savepoint.Op.beginOp 0 none, savepoint.Op.addHookOp 1 ⟨1, none⟩,
       savepoint.Op.rollbackOp 1 none, savepoint.Op.beginOp 0 none,
       savepoint.Op.addHookOp 2 ⟨2, none⟩,
       savepoint.Op.commitOp 2 none none none none,
       savepoint.Op.addHookOp 0 ⟨3, none⟩,
       savepoint.Op.commitOp 0 none none none none]).hk := by
  refine ⟨by decide, by decide, by decide, by decide, by decide⟩

/-- C5 amended.  In the counting variant the claim holds: over any call
sequence from the fresh tree, (a) if no successful physical COMMIT appears in
the trace no hook ever executes; (b) if one does, the executed hooks are
exactly the run of the root's registered hook list — in registration order,
each exactly once, stopping at the first failing hook — and no physical
ROLLBACK appears in the trace (so nothing ran after any rollback); (c) the
root TxCommit returns the hook loop's error; (d) a failing hook stops the
sequence and its error is returned, the hooks before it having run in order;
(e) when all hooks succeed, all run in registration order.  In the savepoint
variant hooks bubble up only through nodes that commit; hooks registered on a
node that rolls back are discarded while the remaining hooks still run with
the outermost commit (see the counterexample). -/
theorem C5_amended
    (ops : List txmanager.Op)
    (s : txmanager.TxState) (i : Nat) (rErr : Option Nat)
    (hd : (txmanager.getNode s i).done = false)
    (hr : (txmanager.getNode s (txmanager.getNode s i).root).done = false)
    (hcc : (txmanager.getNode s i).childCount = 0)
    (hpn : (txmanager.getNode s i).parent = none)
    (H1 H2 H : List Hook) (h : Hook) (e : Nat)
    (hH1 : ∀ x ∈ H1, x.res = none) (hh : h.res = some e)
    (hH : ∀ x ∈ H, x.res = none) :
    (PhysAction.commit none ∉ (txmanager.run txmanager.initState ops).phys →
      (txmanager.run txmanager.initState ops).hk = []) ∧
    (PhysAction.commit none ∈ (txmanager.run txmanager.initState ops).phys →
      (txmanager.run txmanager.initState ops).hk =
        (runHooks (txmanager.hooks0 (txmanager.run txmanager.initState ops).fin)).2 ∧
      ∀ r, PhysAction.rollback r ∉ (txmanager.run txmanager.initState ops).phys) ∧
    ((txmanager.TxCommit none rErr s i).1 =
        (runHooks (txmanager.getNode s i).hooks).1 ∧
      (txmanager.TxCommit none rErr s i).2.2.2 =
        (runHooks (txmanager.getNode s i).hooks).2) ∧
    runHooks (H1 ++ h :: H2) = (some (GoErr.ext e), H1.map Hook.id ++ [h.id]) ∧
    runHooks H = (none, H.map Hook.id) := by
  have hInv0 : txmanager.Inv txmanager.initState := by
    unfold txmanager.Inv; decide
  obtain ⟨_, hdisc⟩ := txmanager.run_live ops txmanager.initState hInv0 (by decide)
  refine ⟨?_, ?_, ?_, runHooks_first_err H1 H2 h e hH1 hh, runHooks_all_ok H hH⟩
  · intro hnot
    rcases hdisc with ⟨_, _, hk⟩ | ⟨_, hp2, _, _⟩ | ⟨_, hk, _⟩ | ⟨_, hk, _, _⟩
    · exact hk
    · rw [hp2] at hnot
      simp at hnot
    · exact hk
    · exact hk
  · intro hmem
    rcases hdisc with ⟨_, hp2, _⟩ | ⟨_, hp2, hhk, _⟩ |
      ⟨_, _, e2, r2, hp2, _⟩ | ⟨_, _, ⟨r2, hp2⟩, _⟩
    · rw [hp2] at hmem
      simp at hmem
    · refine ⟨hhk, fun r hmem2 => ?_⟩
      rw [hp2] at hmem2
      simp at hmem2
    · rw [hp2] at hmem
      simp at hmem
    · rw [hp2] at hmem
      simp at hmem
  · have hg : ((txmanager.getNode s i).done ||
        (txmanager.getNode s (txmanager.getNode s i).root).done) = false := by
      rw [hd, hr]; rfl
    have hhk : (txmanager.getNode
        (txmanager.setNode s i fun n => { n with done := true }) i).hooks =
        (txmanager.getNode s i).hooks :=
      txmanager.hooks_setNode_pres s i (fun n => { n with done := true }) i
        (fun n => rfl)
    constructor
    · simp [txmanager.TxCommit, hg, hcc, hpn, hhk]
    · simp [txmanager.TxCommit, hg, hcc, hpn, hhk]

/-- C5 amended, witnessed: a one-hook success run executes exactly the
registered list; the hook loop stops at a failing hook and returns its error;
an all-nil list runs fully in order. -/
theorem C5_amended_witness :
    (txmanager.run txmanager.initState
      [txmanager.Op.addHookOp 0 ⟨4, none⟩,
       txmanager.Op.commitOp 0 none none]).hk =
      (runHooks (txmanager.hooks0 (txmanager.run txmanager.initState
        [txmanager.Op.addHookOp 0 ⟨4, none⟩,
         txmanager.Op.commitOp 0 none none]).fin)).2 ∧
    (txmanager.TxCommit none none txmanager.initState 0).1 =
      (runHooks (txmanager.getNode txmanager.initState 0).hooks).1 ∧
    runHooks [⟨1, none⟩, ⟨2, some 9⟩, ⟨3, none⟩] =
      (some (GoErr.ext 9), [1, 2]) ∧
    runHooks [⟨6, none⟩] = (none, [6]) := by
  have h := C5_amended
    [txmanager.Op.addHookOp 0 ⟨4, none⟩, txmanager.Op.commitOp 0 none none]
    txmanager.initState 0 none (by decide) (by decide) (by decide) (by decide)
    [⟨1, none⟩] [⟨3, none⟩] [⟨6, none⟩] ⟨2, some 9⟩ 9
    (by decide) rfl (by decide)
  exact ⟨(h.2.1 (by decide)).1, h.2.2.1.1, h.2.2.2.1, h.2.2.2.2⟩

/-- C7.  The `Do` helper begins a node from the given handle and always runs
the deferred TxFinish on exit.  On the `DB` handle a failing physical BEGIN
is returned at once.  On a `Tx` handle: if the body returns a non-nil error,
`Do` returns exactly that error and the deferred TxFinish performs the
rollback (one physical ROLLBACK, after which the tree root is done) provided
the body left the node and tree live; if the body returns nil, `Do` returns
exactly the result of TxCommit on the node, the finish running after the
commit. -/
theorem C7_do_helper
    (bf : txmanager.TxState → Nat → txmanager.TxState × Option Nat)
    (cErr rErr fErr : Option Nat) (s : txmanager.TxState) (p : Nat) (e : Nat) :
    (txmanager.DoDb bf (some e) cErr rErr fErr).1 = some (GoErr.ext e) ∧
    ((bf (txmanager.TxBegin s p).1 (txmanager.TxBegin s p).2).2 = some e →
      (txmanager.Do bf cErr rErr fErr s p).1 = some (GoErr.ext e)) ∧
    ((bf (txmanager.TxBegin s p).1 (txmanager.TxBegin s p).2).2 = some e →
      (txmanager.getNode (bf (txmanager.TxBegin s p).1 (txmanager.TxBegin s p).2).1
          (txmanager.TxBegin s p).2).done = false →
      (txmanager.getNode (bf (txmanager.TxBegin s p).1 (txmanager.TxBegin s p).2).1
          (txmanager.getNode
            (bf (txmanager.TxBegin s p).1 (txmanager.TxBegin s p).2).1
            (txmanager.TxBegin s p).2).root).done = false →
      (txmanager.Do bf cErr rErr fErr s p).2.2.1 = [PhysAction.rollback fErr] ∧
      (txmanager.getNode (txmanager.Do bf cErr rErr fErr s p).2.1
          (txmanager.getNode
            (bf (txmanager.TxBegin s p).1 (txmanager.TxBegin s p).2).1
            (txmanager.TxBegin s p).2).root).done = true) ∧
    ((bf (txmanager.TxBegin s p).1 (txmanager.TxBegin s p).2).2 = none →
      (txmanager.Do bf cErr rErr fErr s p).1 =
        (txmanager.TxCommit cErr rErr
          (bf (txmanager.TxBegin s p).1 (txmanager.TxBegin s p).2).1
          (txmanager.TxBegin s p).2).1 ∧
      (txmanager.Do bf cErr rErr fErr s p).2.2.1 =
        (txmanager.TxCommit cErr rErr
          (bf (txmanager.TxBegin s p).1 (txmanager.TxBegin s p).2).1
          (txmanager.TxBegin s p).2).2.2.1 ++
        (txmanager.TxFinish fErr
          (txmanager.TxCommit cErr rErr
            (bf (txmanager.TxBegin s p).1 (txmanager.TxBegin s p).2).1
            (txmanager.TxBegin s p).2).2.1
          (txmanager.TxBegin s p).2).2.2) := by
  refine ⟨by simp [txmanager.DoDb], ?_, ?_, ?_⟩
  · intro hbody
    simp [txmanager.Do, hbody]
  · intro hbody hd2 hr2
    have hg : ((txmanager.getNode
          (bf (txmanager.TxBegin s p).1 (txmanager.TxBegin s p).2).1
          (txmanager.TxBegin s p).2).done ||
        (txmanager.getNode
          (bf (txmanager.TxBegin s p).1 (txmanager.TxBegin s p).2).1
          (txmanager.getNode
            (bf (txmanager.TxBegin s p).1 (txmanager.TxBegin s p).2).1
            (txmanager.TxBegin s p).2).root).done) = false := by
      rw [hd2, hr2]; rfl
    have hfin : txmanager.TxFinish fErr
        (bf (txmanager.TxBegin s p).1 (txmanager.TxBegin s p).2).1
        (txmanager.TxBegin s p).2 =
        txmanager.TxRollback fErr
          (bf (txmanager.TxBegin s p).1 (txmanager.TxBegin s p).2).1
          (txmanager.TxBegin s p).2 := by
      simp [txmanager.TxFinish, hg]
    have hroll : txmanager.TxRollback fErr
        (bf (txmanager.TxBegin s p).1 (txmanager.TxBegin s p).2).1
        (txmanager.TxBegin s p).2 =
        (fErr.map GoErr.ext,
         txmanager.setNode
           (txmanager.setNode
             (bf (txmanager.TxBegin s p).1 (txmanager.TxBegin s p).2).1
             (txmanager.TxBegin s p).2 (fun n => { n with done := true }))
           (txmanager.getNode
             (bf (txmanager.TxBegin s p).1 (txmanager.TxBegin s p).2).1
             (txmanager.TxBegin s p).2).root (fun n => { n with done := true }),
         [PhysAction.rollback fErr]) := by
      simp [txmanager.TxRollback, hg]
    have hDo : txmanager.Do bf cErr rErr fErr s p =
        (some (GoErr.ext e),
         (txmanager.TxFinish fErr
           (bf (txmanager.TxBegin s p).1 (txmanager.TxBegin s p).2).1
           (txmanager.TxBegin s p).2).2.1,
         (txmanager.TxFinish fErr
           (bf (txmanager.TxBegin s p).1 (txmanager.TxBegin s p).2).1
           (txmanager.TxBegin s p).2).2.2, []) := by
      simp [txmanager.Do, hbody]
    have hrootlt : (txmanager.getNode
        (bf (txmanager.TxBegin s p).1 (txmanager.TxBegin s p).2).1
        (txmanager.TxBegin s p).2).root <
        (txmanager.setNode
          (bf (txmanager.TxBegin s p).1 (txmanager.TxBegin s p).2).1
          (txmanager.TxBegin s p).2
          (fun n => { n with done := true })).nodes.length := by
      rw [txmanager.length_setNode]
      exact txmanager.lt_of_not_done _ _ hr2
    constructor
    · rw [hDo]
      show (txmanager.TxFinish fErr
        (bf (txmanager.TxBegin s p).1 (txmanager.TxBegin s p).2).1
        (txmanager.TxBegin s p).2).2.2 = [PhysAction.rollback fErr]
      rw [hfin, hroll]
    · rw [hDo]
      show (txmanager.getNode (txmanager.TxFinish fErr
        (bf (txmanager.TxBegin s p).1 (txmanager.TxBegin s p).2).1
        (txmanager.TxBegin s p).2).2.1 _).done = true
      rw [hfin, hroll]
      show (txmanager.getNode (txmanager.setNode _ _ _) _).done = true
      rw [txmanager.getNode_setNode, if_pos ⟨rfl, hrootlt⟩]
  · intro hbody
    constructor
    · simp [txmanager.Do, hbody]
    · simp [txmanager.Do, hbody]

/-- C7, witnessed: on the fresh tree, a body failing with error 5 makes Do
return error 5 and the deferred finish roll back; a nil body makes Do return
the child commit's nil result; a failing physical BEGIN surfaces at once. -/
theorem C7_do_helper_witness :
    (txmanager.DoDb (fun st _ => (st, some 5)) (some 3) none none none).1 =
      some (GoErr.ext 3) ∧
    (txmanager.Do (fun st _ => (st, some 5)) none none none
      txmanager.initState 0).1 = some (GoErr.ext 5) ∧
    (txmanager.Do (fun st _ => (st, some 5)) none none none
      txmanager.initState 0).2.2.1 = [PhysAction.rollback none] ∧
    (txmanager.Do (fun st _ => (st, none)) none none none
      txmanager.initState 0).1 =
      (txmanager.TxCommit none none
        (txmanager.TxBegin txmanager.initState 0).1 1).1 := by
  have h1 := C7_do_helper (fun st _ => (st, some 5)) none none none
    txmanager.initState 0 5
  have h2 := C7_do_helper (fun st _ => (st, none)) none none none
    txmanager.initState 0 3
  have h3 := C7_do_helper (fun st _ => (st, some 5)) none none none
    txmanager.initState 0 3
  exact ⟨h3.1, h1.2.1 rfl, (h1.2.2.1 rfl (by decide) (by decide)).1,
    (h2.2.2.2 rfl).1⟩
